import Mathlib

/-!
Verification of the lix Rust SQL-mediation engine
(`packages/sdk-rust-engine-node/native/lix-engine/src/lib.rs`) against its
natural-language specification.

The engine is embedded shallowly. External libraries that the engine calls
(the `sqlparser` crate's parser and `Display` impls, `serde_json` string
parsing, the CEL compiler and the JSON-Schema compiler/validator) are not
part of this repository; they are modelled as oracle functions collected in
the `Oracles` structure, and every theorem quantifies over them. The SQL AST
is modelled by inductive types carrying exactly the fields the engine
inspects; fields the engine never reads are omitted, and constructors the
engine treats through a catch-all `_` arm are collapsed into one `Other*`
constructor. Machine integers (`i64`) are modelled as `Int`; the engine does
no arithmetic on them beyond a `usize`-to-`i64` length cast, which cannot
overflow for any list representable here.
-/

namespace LixEngine

/-! ## String helpers

Rust `str::contains`, `str::to_lowercase` and `eq_ignore_ascii_case`,
modelled over `List Char`. Lean's `Char.toLower` lowers exactly the ASCII
uppercase letters, which coincides with `eq_ignore_ascii_case`; for
`to_lowercase` (full Unicode in Rust) the model is character-wise ASCII
lowering, which agrees on every ASCII string.  -/

/-- Whether the second list is an initial segment of the first. -/
def leadsWith : List Char → List Char → Bool
  | _, [] => true
  | [], _ :: _ => false
  | c :: cs, d :: ds => c == d && leadsWith cs ds

/-- Whether `needle` occurs contiguously inside `hay` (Rust `str::contains`). -/
def containsSub : List Char → List Char → Bool
  | [], needle => needle.isEmpty
  | hay@(_ :: rest), needle => leadsWith hay needle || containsSub rest needle

/-- Rust `haystack.contains(needle)` on strings. -/
def strContains (hay needle : String) : Bool :=
  containsSub hay.data needle.data

/-- Rust `str::to_lowercase`, modelled character-wise (ASCII-exact). -/
def lowercase (s : String) : String :=
  String.mk (s.data.map Char.toLower)

/-- Rust `str::eq_ignore_ascii_case`. -/
def eqIgnoreAsciiCase (a b : String) : Bool :=
  a.data.map Char.toLower == b.data.map Char.toLower

/-! ## JSON values (`serde_json::Value`)

Objects are ordered association lists (serde preserves order through the
engine); numbers are split into the exact-`i64` case the engine constructs
itself and an opaque finite-double case produced only by oracles. -/

inductive Json where
  | null : Json
  | bool : Bool → Json
  | num : Int → Json
  | numFloat : String → Json
  | str : String → Json
  | arr : List Json → Json
  | obj : List (String × Json) → Json
deriving Inhabited

/-- `serde_json::Map::get`: first binding of the key, if any. -/
def Json.objGet (fields : List (String × Json)) (key : String) : Option Json :=
  match fields with
  | [] => none
  | (k, v) :: rest => if k == key then some v else Json.objGet rest key

/-! ## SQL AST (the `sqlparser` fragment the engine inspects)

Each type mirrors the `sqlparser::ast` type of the same name, restricted to
the constructors and fields `lib.rs` reads. A `Unit`-valued `Option` field
stands for a field the engine only tests with `is_some`. -/

/-- `sqlparser::ast::Ident`: the engine reads only `.value`. -/
structure Ident where
  value : String
deriving BEq, DecidableEq, Inhabited

/-- `sqlparser::ast::ObjectName` (`.0` is the segment list). -/
abbrev ObjectName := List Ident

/-- `sqlparser::ast::TableAlias`. -/
structure TableAlias where
  name : Ident
  columns : List Ident
deriving BEq, DecidableEq, Inhabited

/-- `sqlparser::ast::Value`: literal shapes `convert_sql_value_to_json`
distinguishes.  `OtherValue` is its catch-all arm, carrying the `Display`
rendering used in the error message. -/
inductive SqlValue where
  | SingleQuotedString : String → SqlValue
  | DoubleQuotedString : String → SqlValue
  | TripleSingleQuotedString : String → SqlValue
  | TripleDoubleQuotedString : String → SqlValue
  | EscapedStringLiteral : String → SqlValue
  | UnicodeStringLiteral : String → SqlValue
  | NationalStringLiteral : String → SqlValue
  | Number : String → Bool → SqlValue
  | Boolean : Bool → SqlValue
  | Null : SqlValue
  | Placeholder : String → SqlValue
  | OtherValue : String → SqlValue
deriving BEq, DecidableEq, Inhabited

mutual

/-- `sqlparser::ast::Expr`: the two shapes `evaluate_sql_expr_to_json`
handles, plus the catch-all (carrying its `Display` rendering, used in the
error message and in the write rewriter via the `exprStr` oracle). -/
inductive Expr where
  | Value : SqlValue → Expr
  | Function : ObjectName → FunctionArguments → Expr
  | OtherExpr : String → Expr

/-- `sqlparser::ast::FunctionArguments`. -/
inductive FunctionArguments where
  | List : List FunctionArg → FunctionArguments
  | OtherArguments : FunctionArguments

/-- `sqlparser::ast::FunctionArg`: `Unnamed(FunctionArgExpr::Expr _)` versus
everything else. -/
inductive FunctionArg where
  | UnnamedExpr : Expr → FunctionArg
  | OtherArg : FunctionArg

end

mutual

/-- `sqlparser::ast::Query`: optional WITH clause and body (other fields are
never read by the engine). -/
inductive Query where
  | mk : Option (List Cte) → SetExpr → Query

/-- `sqlparser::ast::Cte`: the engine reads only `.query`. -/
inductive Cte where
  | mk : Query → Cte

/-- `sqlparser::ast::SetExpr`. -/
inductive SetExpr where
  | Select : SelectBody → SetExpr
  | Query : Query → SetExpr
  | SetOperation : SetExpr → SetExpr → SetExpr
  | Values : List (List Expr) → SetExpr
  | OtherSetExpr : SetExpr

/-- `sqlparser::ast::Select`: the engine reads only `.from`. -/
inductive SelectBody where
  | mk : List TableWithJoins → SelectBody

/-- `sqlparser::ast::TableWithJoins`. -/
inductive TableWithJoins where
  | mk : TableFactor → List Join → TableWithJoins

/-- `sqlparser::ast::Join`: the engine reads only `.relation`. -/
inductive Join where
  | mk : TableFactor → Join

/-- `sqlparser::ast::TableFactor`: `Table` keeps the name, alias and the
`is_some` view of its argument list; wrappers keep exactly the component the
read rewriter descends into. -/
inductive TableFactor where
  | Table : ObjectName → Option TableAlias → Option Unit → TableFactor
  | Derived : Bool → Query → Option TableAlias → TableFactor
  | NestedJoin : TableWithJoins → TableFactor
  | Pivot : TableFactor → TableFactor
  | Unpivot : TableFactor → TableFactor
  | MatchRecognize : TableFactor → TableFactor
  | OtherFactor : TableFactor

end

/-- `sqlparser::ast::Query.with`: projection of the WITH clause. -/
def Query.withCtes : Query → Option (List Cte)
  | .mk w _ => w

/-- `sqlparser::ast::Query.body`. -/
def Query.body : Query → SetExpr
  | .mk _ b => b

/-- `sqlparser::ast::Assignment`: the engine only renders assignments with
`Display`, so the model carries that rendering. -/
structure Assignment where
  rendered : String
deriving BEq, DecidableEq, Inhabited

/-- `sqlparser::ast::Insert`, restricted to the fields
`rewrite_insert_for_write_rewrite` and `extract_insert_validation_rows`
read. -/
structure Insert where
  table_name : ObjectName
  columns : List Ident
  source : Option Query
  onConflict : Option Unit
  returning : Option Unit
  partitioned : Option Unit
  after_columns : List Ident
  table_alias : Option Unit

/-- `sqlparser::ast::FromTable`. -/
inductive FromTable where
  | WithFromKeyword : List TableWithJoins → FromTable
  | WithoutKeyword : List TableWithJoins → FromTable

/-- The table list under a `FromTable` (both arms carry one). -/
def FromTable.tables : FromTable → List TableWithJoins
  | .WithFromKeyword v => v
  | .WithoutKeyword v => v

/-- `sqlparser::ast::Delete`, restricted to the fields
`rewrite_delete_for_write_rewrite` reads. -/
structure Delete where
  tables : List ObjectName
  from_clause : FromTable
  using_clause : Option Unit
  returning : Option Unit
  order_by : List Unit
  limit : Option Unit
  selection : Option Expr

/-- `sqlparser::ast::Statement`: the four arms the router distinguishes and
a catch-all for everything else (PRAGMA, DDL, ...). -/
inductive Statement where
  | Query : Query → Statement
  | Insert : Insert → Statement
  | Update : TableWithJoins → List Assignment → Option TableWithJoins →
      Option Expr → Option Unit → Statement
  | Delete : Delete → Statement
  | OtherStatement : Statement

/-! ## Engine data model -/

/-- `EngineError { code, message }`. -/
structure EngineError where
  code : String
  message : String
deriving BEq, DecidableEq

def RUST_KIND_READ_REWRITE : String := "read_rewrite"
def RUST_KIND_WRITE_REWRITE : String := "write_rewrite"
def RUST_KIND_VALIDATION : String := "validation"
def RUST_KIND_PASSTHROUGH : String := "passthrough"

def RUST_ROWS_AFFECTED_ROWS_LENGTH : String := "rows_length"
def RUST_ROWS_AFFECTED_SQLITE_CHANGES : String := "sqlite_changes"

def LIX_RUST_SQLITE_EXECUTION : String := "LIX_RUST_SQLITE_EXECUTION"
def LIX_RUST_DETECT_CHANGES : String := "LIX_RUST_DETECT_CHANGES"
def LIX_RUST_REWRITE_VALIDATION : String := "LIX_RUST_REWRITE_VALIDATION"
def LIX_RUST_UNSUPPORTED_SQLITE_FEATURE : String := "LIX_RUST_UNSUPPORTED_SQLITE_FEATURE"
def LIX_RUST_PROTOCOL_MISMATCH : String := "LIX_RUST_PROTOCOL_MISMATCH"
def LIX_RUST_TIMEOUT : String := "LIX_RUST_TIMEOUT"
def LIX_RUST_UNKNOWN : String := "LIX_RUST_UNKNOWN"

def INTERNAL_STATE_VTABLE : String := "lix_internal_state_vtable"
def STATE_BY_VERSION : String := "state_by_version"
def STATE_VIEW : String := "state"
def STATE_ALL_VIEW : String := "state_all"
def MUTATION_ROW_CTE : String := "__lix_mutation_rows"
def STATE_MUTATION_KEY_COLUMNS : List String :=
  ["entity_id", "schema_key", "file_id", "version_id"]

/-- `EngineError::rewrite_validation`. -/
def EngineError.rewriteValidation (message : String) : EngineError :=
  ⟨LIX_RUST_REWRITE_VALIDATION, message⟩

/-- `EngineError::protocol_mismatch`. -/
def EngineError.protocolMismatch (message : String) : EngineError :=
  ⟨LIX_RUST_PROTOCOL_MISMATCH, message⟩

/-- The seven stable engine codes of spec §7. -/
def STABLE_ENGINE_CODES : List String :=
  [LIX_RUST_SQLITE_EXECUTION, LIX_RUST_DETECT_CHANGES, LIX_RUST_REWRITE_VALIDATION,
   LIX_RUST_UNSUPPORTED_SQLITE_FEATURE, LIX_RUST_PROTOCOL_MISMATCH, LIX_RUST_TIMEOUT,
   LIX_RUST_UNKNOWN]

/-- `map_host_error(error, default_code)` (lib.rs lines 1197-1210). -/
def map_host_error (error : EngineError) (default_code : String) : EngineError :=
  if error.code == LIX_RUST_SQLITE_EXECUTION
      || error.code == LIX_RUST_DETECT_CHANGES
      || error.code == LIX_RUST_REWRITE_VALIDATION
      || error.code == LIX_RUST_UNSUPPORTED_SQLITE_FEATURE
      || error.code == LIX_RUST_PROTOCOL_MISMATCH
      || error.code == LIX_RUST_TIMEOUT
      || error.code == LIX_RUST_UNKNOWN then
    error
  else
    ⟨default_code, error.message⟩

/-! ## Oracles for external libraries -/

/-- The engine's calls into external crates, as oracle functions. `parseSql`
is `sqlparser::Parser::parse_sql` (`Except`'s error is the parser error's
`Display`); the `*Str` fields are the `Display` impls of the AST types;
`jsonParse` is `serde_json::from_str::<Value>` (error = the serde error's
`Display`); `f64Finite` is whether `str::parse::<f64>` succeeds and
`serde_json::Number::from_f64` accepts the result; `celCompileErr` is
`cel_interpreter::Program::compile` (`some msg` = compile error);
`schemaCompileErr` and `schemaValidateErr` are `jsonschema::JSONSchema`
compilation and validation (validation returns its first error's message). -/
structure Oracles where
  parseSql : String → Except String (List Statement)
  stmtStr : Statement → String
  exprStr : Expr → String
  jsonParse : String → Except String Json
  f64Finite : String → Bool
  celCompileErr : String → Option String
  schemaCompileErr : Json → Option String
  schemaValidateErr : Json → Json → Option String

/-! ## Router and planner (lib.rs lines 193-267) -/

/-- `is_validation_sql` (lib.rs lines 259-267). -/
def is_validation_sql (sql : String) : Bool :=
  let lowered := lowercase sql
  strContains lowered "insert into state"
    || strContains lowered "insert into state_all"
    || strContains lowered "update state"
    || strContains lowered "update state_all"
    || strContains lowered "delete from state"
    || strContains lowered "delete from state_all"

/-- The router's statement scan: `saw_read`/`saw_write` accumulation with an
early `Passthrough` return (`none`) on any non-DML statement. -/
def scanStatements : List Statement → Bool → Bool → Option (Bool × Bool)
  | [], saw_read, saw_write => some (saw_read, saw_write)
  | stmt :: rest, saw_read, saw_write =>
    match stmt with
    | .Query _ => scanStatements rest true saw_write
    | .Insert _ => scanStatements rest saw_read true
    | .Update _ _ _ _ _ => scanStatements rest saw_read true
    | .Delete _ => scanStatements rest saw_read true
    | .OtherStatement => none

/-- `route_statement_kind` (lib.rs lines 193-237). -/
def route_statement_kind (O : Oracles) (sql : String) : String :=
  match O.parseSql sql with
  | .error _ => RUST_KIND_PASSTHROUGH
  | .ok [] => RUST_KIND_PASSTHROUGH
  | .ok statements@(_ :: _) =>
    match scanStatements statements false false with
    | none => RUST_KIND_PASSTHROUGH
    | some (saw_read, saw_write) =>
      if saw_write then
        if is_validation_sql sql then RUST_KIND_VALIDATION else RUST_KIND_WRITE_REWRITE
      else if saw_read then RUST_KIND_READ_REWRITE
      else RUST_KIND_PASSTHROUGH

/-- `ExecutePlan`. -/
structure ExecutePlan where
  statement_kind : String
  preprocess_mode : String
  rows_affected_mode : String
deriving BEq, DecidableEq

/-- `plan_execute` (lib.rs lines 239-257). -/
def plan_execute (O : Oracles) (sql : String) : ExecutePlan :=
  let statement_kind := route_statement_kind O sql
  let preprocess_mode := if statement_kind == RUST_KIND_PASSTHROUGH then "none" else "full"
  let rows_affected_mode :=
    if statement_kind == RUST_KIND_READ_REWRITE || statement_kind == RUST_KIND_PASSTHROUGH
    then RUST_ROWS_AFFECTED_ROWS_LENGTH
    else RUST_ROWS_AFFECTED_SQLITE_CHANGES
  ⟨statement_kind, preprocess_mode, rows_affected_mode⟩

end LixEngine

namespace LixEngine

/-! ## Write-target classification (lib.rs lines 900-937) -/

/-- `WriteTarget`. -/
inductive WriteTarget where
  | State | StateAll | StateByVersion | StateVtable | Other
deriving BEq, DecidableEq

/-- `classify_write_target`: last name segment, ASCII case-insensitive. -/
def classify_write_target (name : ObjectName) : WriteTarget :=
  match name.getLast? with
  | none => .Other
  | some last =>
    if eqIgnoreAsciiCase last.value STATE_VIEW then .State
    else if eqIgnoreAsciiCase last.value STATE_ALL_VIEW then .StateAll
    else if eqIgnoreAsciiCase last.value STATE_BY_VERSION then .StateByVersion
    else if eqIgnoreAsciiCase last.value INTERNAL_STATE_VTABLE then .StateVtable
    else .Other

/-- `resolve_physical_target`. -/
def resolve_physical_target : WriteTarget → Option String
  | .State | .StateAll | .StateByVersion => some STATE_BY_VERSION
  | .StateVtable => some INTERNAL_STATE_VTABLE
  | .Other => none

/-- `quote_ident` (lib.rs lines 1134-1136). -/
def quote_ident (ident : String) : String :=
  "\"" ++ ident.replace "\"" "\"\"" ++ "\""

/-- `combine_write_predicate` (lib.rs lines 1116-1132). -/
def combine_write_predicate (O : Oracles) (selection : Option Expr)
    (target : WriteTarget) : Option String :=
  let active_version_filter := "version_id IN (SELECT version_id FROM active_version)"
  let selection_sql := selection.map O.exprStr
  if target == WriteTarget.State then
    match selection_sql with
    | some sql => some ("(" ++ sql ++ ") AND (" ++ active_version_filter ++ ")")
    | none => some active_version_filter
  else
    selection_sql

/-! ## Write rewriters (lib.rs lines 870-1114) -/

/-- The row-rendering loop of `rewrite_insert_for_write_rewrite`: arity check
against the declared column count, `Display` each expression, and append the
active-version scalar when required. -/
def renderInsertRows (O : Oracles) (columnsLen : Nat) (needs_active_version : Bool) :
    List (List Expr) → Except EngineError (List String)
  | [] => .ok []
  | row :: rest =>
    if row.length != columnsLen then
      .error (EngineError.protocolMismatch "insert row shape does not match declared columns")
    else
      let rendered_exprs := row.map O.exprStr
        ++ (if needs_active_version then ["(SELECT version_id FROM active_version)"] else [])
      match renderInsertRows O columnsLen needs_active_version rest with
      | .error e => .error e
      | .ok strs => .ok (("(" ++ String.intercalate ", " rendered_exprs ++ ")") :: strs)

/-- `rewrite_insert_for_write_rewrite` (lib.rs lines 939-1008). `none` means
the statement is left untouched. -/
def rewrite_insert_for_write_rewrite (O : Oracles) (insert : Insert) :
    Except EngineError (Option String) :=
  if insert.onConflict.isSome || insert.returning.isSome || insert.partitioned.isSome
      || !insert.after_columns.isEmpty || insert.table_alias.isSome then
    .ok none
  else
    let target_kind := classify_write_target insert.table_name
    match resolve_physical_target target_kind with
    | none => .ok none
    | some target_table =>
      match insert.source with
      | none => .ok none
      | some source =>
        match source.body with
        | SetExpr.Values values_rows =>
          if insert.columns.isEmpty then .ok none
          else
            let columns0 := insert.columns.map (·.value)
            let needs_active_version := target_kind == WriteTarget.State
              && !(columns0.any (fun column => eqIgnoreAsciiCase column "version_id"))
            let materialized_columns :=
              columns0 ++ (if needs_active_version then ["version_id"] else [])
            match renderInsertRows O insert.columns.length needs_active_version values_rows with
            | .error e => .error e
            | .ok rendered_rows =>
              let materialized_columns_sql :=
                String.intercalate ", " (materialized_columns.map quote_ident)
              .ok (some ("WITH \"" ++ MUTATION_ROW_CTE ++ "\" (" ++ materialized_columns_sql
                ++ ") AS (VALUES " ++ String.intercalate ", " rendered_rows
                ++ ") INSERT INTO " ++ target_table ++ " (" ++ materialized_columns_sql
                ++ ") SELECT " ++ materialized_columns_sql ++ " FROM \"" ++ MUTATION_ROW_CTE
                ++ "\""))
        | _ => .ok none

/-- The UPDATE/DELETE key-tuple CTE template shared by both rewriters: the
SQL emitted once the physical target, optional predicate and trailing
statement are known. -/
def mutationCteSql (target_table : String) (predicate : Option String)
    (trailing : String) : String :=
  let key_columns_sql := String.intercalate ", " STATE_MUTATION_KEY_COLUMNS
  let where_clause := match predicate with
    | some predicate_sql => " WHERE " ++ predicate_sql
    | none => ""
  "WITH \"" ++ MUTATION_ROW_CTE ++ "\" AS (SELECT " ++ key_columns_sql
    ++ " FROM " ++ target_table ++ where_clause ++ " ORDER BY " ++ key_columns_sql
    ++ ") " ++ trailing ++ " WHERE (" ++ key_columns_sql ++ ") IN (SELECT "
    ++ key_columns_sql ++ " FROM \"" ++ MUTATION_ROW_CTE ++ "\")"

/-- `rewrite_update_for_write_rewrite` (lib.rs lines 1010-1059). -/
def rewrite_update_for_write_rewrite (O : Oracles) (table : TableWithJoins)
    (assignments : List Assignment) (from_clause : Option TableWithJoins)
    (selection : Option Expr) (returning : Option Unit) : Option String :=
  match table with
  | .mk relation joins =>
    if joins.length > 0 || from_clause.isSome || returning.isSome then none
    else
      match relation with
      | TableFactor.Table name aliasOpt args =>
        if aliasOpt.isSome || args.isSome then none
        else
          let target_kind := classify_write_target name
          match resolve_physical_target target_kind with
          | none => none
          | some target_table =>
            let predicate := combine_write_predicate O selection target_kind
            let assignments_sql :=
              String.intercalate ", " (assignments.map (·.rendered))
            some (mutationCteSql target_table predicate
              ("UPDATE " ++ target_table ++ " SET " ++ assignments_sql))
      | _ => none

/-- `rewrite_delete_for_write_rewrite` (lib.rs lines 1061-1114). -/
def rewrite_delete_for_write_rewrite (O : Oracles) (delete : Delete) : Option String :=
  if !delete.tables.isEmpty || delete.using_clause.isSome || delete.returning.isSome
      || !delete.order_by.isEmpty || delete.limit.isSome then
    none
  else
    let tables := delete.from_clause.tables
    if tables.length != 1 then none
    else
      match tables.head? with
      | none => none
      | some (TableWithJoins.mk relation joins) =>
        if !joins.isEmpty then none
        else
          match relation with
          | TableFactor.Table name aliasOpt args =>
            if aliasOpt.isSome || args.isSome then none
            else
              let target_kind := classify_write_target name
              match resolve_physical_target target_kind with
              | none => none
              | some target_table =>
                let predicate := combine_write_predicate O delete.selection target_kind
                some (mutationCteSql target_table predicate ("DELETE FROM " ++ target_table))
          | _ => none

/-- `rewrite_statement_for_write_rewrite` (lib.rs lines 870-898): the
rewritten SQL (or the statement's own `Display`) and whether it changed. -/
def rewrite_statement_for_write_rewrite (O : Oracles) (statement : Statement) :
    Except EngineError (String × Bool) :=
  let rewrittenE : Except EngineError (Option String) :=
    match statement with
    | .Insert insert => rewrite_insert_for_write_rewrite O insert
    | .Update table assignments from_clause selection returning =>
      .ok (rewrite_update_for_write_rewrite O table assignments from_clause selection returning)
    | .Delete delete => .ok (rewrite_delete_for_write_rewrite O delete)
    | _ => .ok none
  match rewrittenE with
  | .error e => .error e
  | .ok (some sql) => .ok (sql, true)
  | .ok none => .ok (O.stmtStr statement, false)

/-! ## Read rewriter (lib.rs lines 310-444) -/

/-- `is_target_vtable_name`. -/
def is_target_vtable_name (name : ObjectName) : Bool :=
  match name.getLast? with
  | some part => eqIgnoreAsciiCase part.value INTERNAL_STATE_VTABLE
  | none => false

/-- The canonical replacement SELECT of `build_state_vtable_equivalent_subquery`. -/
def STATE_VTABLE_EQUIVALENT_SQL : String :=
  "SELECT entity_id, schema_key, file_id, version_id, plugin_key, snapshot_content, "
    ++ "schema_version, created_at, updated_at, inherited_from_version_id, "
    ++ "NULL AS change_id, 1 AS untracked, NULL AS commit_id, NULL AS writer_key, "
    ++ "NULL AS metadata FROM lix_internal_state_all_untracked"

/-- `build_state_vtable_equivalent_subquery` (lib.rs lines 404-444). -/
def build_state_vtable_equivalent_subquery (O : Oracles) : Except EngineError Query :=
  match O.parseSql STATE_VTABLE_EQUIVALENT_SQL with
  | .error e => .error (EngineError.protocolMismatch
      ("failed to construct read rewrite for " ++ INTERNAL_STATE_VTABLE ++ ": " ++ e))
  | .ok statements =>
    match statements.head? with
    | none => .error (EngineError.protocolMismatch
        ("missing read rewrite statement for " ++ INTERNAL_STATE_VTABLE))
    | some (Statement.Query query) => .ok query
    | some _ => .error (EngineError.protocolMismatch
        ("read rewrite query for " ++ INTERNAL_STATE_VTABLE ++ " must be a SELECT"))

mutual

/-- `rewrite_query_for_read_rewrite` (lib.rs lines 317-328); in-place
mutation is modelled by returning the updated node with the changed flag. -/
def rewrite_query_for_read_rewrite (O : Oracles) : Query → Except EngineError (Query × Bool)
  | .mk with_ctes body => do
    let (ctes2, changed1) ←
      match with_ctes with
      | none => pure ((none : Option (List Cte)), false)
      | some ctes => do
        let (l, c) ← rewrite_cte_list O ctes
        pure (some l, c)
    let (body2, changed2) ← rewrite_set_expr_for_read_rewrite O body
    pure (Query.mk ctes2 body2, changed1 || changed2)

/-- The CTE loop of `rewrite_query_for_read_rewrite`. -/
def rewrite_cte_list (O : Oracles) : List Cte → Except EngineError (List Cte × Bool)
  | [] => .ok ([], false)
  | Cte.mk q :: rest => do
    let (q2, c1) ← rewrite_query_for_read_rewrite O q
    let (rest2, c2) ← rewrite_cte_list O rest
    pure (Cte.mk q2 :: rest2, c1 || c2)

/-- `rewrite_set_expr_for_read_rewrite` (lib.rs lines 330-341). -/
def rewrite_set_expr_for_read_rewrite (O : Oracles) : SetExpr → Except EngineError (SetExpr × Bool)
  | .Select select => do
    let (s2, c) ← rewrite_select_for_read_rewrite O select
    pure (SetExpr.Select s2, c)
  | .Query query => do
    let (q2, c) ← rewrite_query_for_read_rewrite O query
    pure (SetExpr.Query q2, c)
  | .SetOperation left right => do
    let (l2, c1) ← rewrite_set_expr_for_read_rewrite O left
    let (r2, c2) ← rewrite_set_expr_for_read_rewrite O right
    pure (SetExpr.SetOperation l2 r2, c1 || c2)
  | other => .ok (other, false)

/-- `rewrite_select_for_read_rewrite` (lib.rs lines 343-349). -/
def rewrite_select_for_read_rewrite (O : Oracles) : SelectBody → Except EngineError (SelectBody × Bool)
  | .mk from_list => do
    let (l2, c) ← rewrite_twj_list O from_list
    pure (SelectBody.mk l2, c)

/-- The FROM-list loop of `rewrite_select_for_read_rewrite`. -/
def rewrite_twj_list (O : Oracles) : List TableWithJoins → Except EngineError (List TableWithJoins × Bool)
  | [] => .ok ([], false)
  | twj :: rest => do
    let (t2, c1) ← rewrite_table_with_joins_for_read_rewrite O twj
    let (rest2, c2) ← rewrite_twj_list O rest
    pure (t2 :: rest2, c1 || c2)

/-- `rewrite_table_with_joins_for_read_rewrite` (lib.rs lines 351-361). -/
def rewrite_table_with_joins_for_read_rewrite (O : Oracles) :
    TableWithJoins → Except EngineError (TableWithJoins × Bool)
  | .mk relation joins => do
    let (r2, c1) ← rewrite_table_factor_for_read_rewrite O relation
    let (joins2, c2) ← rewrite_join_list O joins
    pure (TableWithJoins.mk r2 joins2, c1 || c2)

/-- The join loop of `rewrite_table_with_joins_for_read_rewrite`. -/
def rewrite_join_list (O : Oracles) : List Join → Except EngineError (List Join × Bool)
  | [] => .ok ([], false)
  | Join.mk relation :: rest => do
    let (r2, c1) ← rewrite_table_factor_for_read_rewrite O relation
    let (rest2, c2) ← rewrite_join_list O rest
    pure (Join.mk r2 :: rest2, c1 || c2)

/-- `rewrite_table_factor_for_read_rewrite` (lib.rs lines 363-395). -/
def rewrite_table_factor_for_read_rewrite (O : Oracles) :
    TableFactor → Except EngineError (TableFactor × Bool)
  | TableFactor.Table name aliasOpt args =>
    if args.isSome || !is_target_vtable_name name then
      .ok (TableFactor.Table name aliasOpt args, false)
    else do
      let subquery ← build_state_vtable_equivalent_subquery O
      let derived_alias := aliasOpt.getD ⟨⟨INTERNAL_STATE_VTABLE⟩, []⟩
      pure (TableFactor.Derived false subquery (some derived_alias), true)
  | TableFactor.Derived lateral subquery aliasOpt => do
    let (q2, c) ← rewrite_query_for_read_rewrite O subquery
    pure (TableFactor.Derived lateral q2 aliasOpt, c)
  | TableFactor.NestedJoin table_with_joins => do
    let (t2, c) ← rewrite_table_with_joins_for_read_rewrite O table_with_joins
    pure (TableFactor.NestedJoin t2, c)
  | TableFactor.Pivot table => do
    let (t2, c) ← rewrite_table_factor_for_read_rewrite O table
    pure (TableFactor.Pivot t2, c)
  | TableFactor.Unpivot table => do
    let (t2, c) ← rewrite_table_factor_for_read_rewrite O table
    pure (TableFactor.Unpivot t2, c)
  | TableFactor.MatchRecognize table => do
    let (t2, c) ← rewrite_table_factor_for_read_rewrite O table
    pure (TableFactor.MatchRecognize t2, c)
  | TableFactor.OtherFactor => .ok (TableFactor.OtherFactor, false)

end

/-- `rewrite_statement_for_read_rewrite` (lib.rs lines 310-315). -/
def rewrite_statement_for_read_rewrite (O : Oracles) :
    Statement → Except EngineError (Statement × Bool)
  | .Query query =>
    match rewrite_query_for_read_rewrite O query with
    | .error e => .error e
    | .ok (q2, changed) => .ok (.Query q2, changed)
  | stmt => .ok (stmt, false)

/-! ## Rewrite dispatch (lib.rs lines 269-308) -/

/-- The per-statement body of `rewrite_sql_for_execution`'s loop. -/
def rewrite_one_statement (O : Oracles) (statement_kind : String) (statement : Statement) :
    Except EngineError (String × Bool) :=
  if statement_kind == RUST_KIND_READ_REWRITE then
    match rewrite_statement_for_read_rewrite O statement with
    | .error e => .error e
    | .ok (stmt2, changed) => .ok (O.stmtStr stmt2, changed)
  else if statement_kind == RUST_KIND_WRITE_REWRITE
      || statement_kind == RUST_KIND_VALIDATION then
    rewrite_statement_for_write_rewrite O statement
  else
    .ok (O.stmtStr statement, false)

/-- The statement loop of `rewrite_sql_for_execution`: the rewritten strings
and the OR of the per-statement changed flags. -/
def rewrite_statements_loop (O : Oracles) (statement_kind : String) :
    List Statement → Except EngineError (List String × Bool)
  | [] => .ok ([], false)
  | stmt :: rest =>
    match rewrite_one_statement O statement_kind stmt with
    | .error e => .error e
    | .ok (str, changed) =>
      match rewrite_statements_loop O statement_kind rest with
      | .error e => .error e
      | .ok (strs, changed2) => .ok (str :: strs, changed || changed2)

/-- `rewrite_sql_for_execution` (lib.rs lines 269-308). -/
def rewrite_sql_for_execution (O : Oracles) (sql : String) (statement_kind : String) :
    Except EngineError String :=
  if statement_kind == RUST_KIND_PASSTHROUGH then .ok sql
  else
    match O.parseSql sql with
    | .error e => .error (EngineError.protocolMismatch ("failed to parse SQL for rewrite: " ++ e))
    | .ok [] => .error (EngineError.protocolMismatch "expected at least one statement for rewrite")
    | .ok statements@(_ :: _) =>
      match rewrite_statements_loop O statement_kind statements with
      | .error e => .error e
      | .ok (rewritten_statements, changed) =>
        if !changed then .ok sql
        else .ok (String.intercalate "; " rewritten_statements)

end LixEngine

namespace LixEngine

/-! ## Mutation validation: row extraction (lib.rs lines 446-751) -/

/-- `is_validation_target_name` (lib.rs lines 495-503). -/
def is_validation_target_name (name : ObjectName) : Bool :=
  match classify_write_target name with
  | .State | .StateAll | .StateByVersion | .StateVtable => true
  | .Other => false

/-- `is_validation_mutation_statement` (lib.rs lines 469-493). -/
def is_validation_mutation_statement : Statement → Bool
  | .Insert insert => is_validation_target_name insert.table_name
  | .Update table _ _ _ _ =>
    match table with
    | .mk (TableFactor.Table name _ _) _ => is_validation_target_name name
    | _ => false
  | .Delete delete =>
    match delete.from_clause.tables.head? with
    | some (TableWithJoins.mk (TableFactor.Table name _ _) _) => is_validation_target_name name
    | _ => false
  | _ => false

/-- `validate_validation_mutations` (lib.rs lines 446-467). -/
def validate_validation_mutations (O : Oracles) (sql : String) : Except EngineError Unit :=
  match O.parseSql sql with
  | .error e =>
    .error (EngineError.rewriteValidation ("failed to parse validation SQL: " ++ e))
  | .ok [] =>
    .error (EngineError.rewriteValidation
      "validation SQL must include at least one mutation statement")
  | .ok statements@(_ :: _) =>
    if statements.all is_validation_mutation_statement then .ok ()
    else .error (EngineError.rewriteValidation
      "validation statements may only mutate state or state_all")

/-- `might_mutate_state_tables` (lib.rs lines 540-554). -/
def might_mutate_state_tables (sql : String) : Bool :=
  let lowered := lowercase sql
  strContains lowered "insert into state"
    || strContains lowered "insert into state_by_version"
    || strContains lowered "insert into state_all"
    || strContains lowered "insert into lix_internal_state_vtable"
    || strContains lowered "update state"
    || strContains lowered "update state_by_version"
    || strContains lowered "update state_all"
    || strContains lowered "update lix_internal_state_vtable"
    || strContains lowered "delete from state"
    || strContains lowered "delete from state_by_version"
    || strContains lowered "delete from state_all"
    || strContains lowered "delete from lix_internal_state_vtable"

/-- `MutationValidationRow`. -/
structure MutationValidationRow where
  schema_key : String
  schema_version : String
  snapshot_content : Json

/-- Rust `str::parse::<i64>`: Lean's decimal integer parse plus the `i64`
range check (Rust fails on overflow). -/
def parseI64 (s : String) : Option Int :=
  match s.toInt? with
  | some n => if -(2 ^ 63) ≤ n ∧ n ≤ 2 ^ 63 - 1 then some n else none
  | none => none

/-- The `Display` of an `ObjectName` (my `Ident` model carries no quote
style, so segments are joined with dots), used for the `json` function-name
comparison and error messages. -/
def objectNameDisplay (name : ObjectName) : String :=
  String.intercalate "." (name.map (·.value))

/-- `convert_sql_value_to_json` (lib.rs lines 692-751). The `&mut usize`
parameter cursor is modelled by passing the cursor in and returning the
updated one. -/
def convert_sql_value_to_json (O : Oracles) (value : SqlValue) (params : List Json)
    (param_cursor : Nat) (parse_json_strings : Bool) :
    Except EngineError (Json × Nat) :=
  match value with
  | .SingleQuotedString text | .DoubleQuotedString text
  | .TripleSingleQuotedString text | .TripleDoubleQuotedString text
  | .EscapedStringLiteral text | .UnicodeStringLiteral text
  | .NationalStringLiteral text =>
    if parse_json_strings then
      match O.jsonParse text with
      | .ok v => .ok (v, param_cursor)
      | .error e =>
        .error (EngineError.rewriteValidation ("failed to parse JSON snapshot content: " ++ e))
    else
      .ok (Json.str text, param_cursor)
  | .Number number _ =>
    match parseI64 number with
    | some parsed => .ok (Json.num parsed, param_cursor)
    | none =>
      if O.f64Finite number then .ok (Json.numFloat number, param_cursor)
      else .error (EngineError.rewriteValidation
        ("unsupported numeric literal in validation mutation: " ++ number))
  | .Boolean b => .ok (Json.bool b, param_cursor)
  | .Null => .ok (Json.null, param_cursor)
  | .Placeholder _ =>
    match params.get? param_cursor with
    | none => .error (EngineError.rewriteValidation
        "not enough SQL parameters for validation mutation")
    | some bound =>
      if parse_json_strings then
        match bound with
        | Json.str text =>
          match O.jsonParse text with
          | .ok parsed => .ok (parsed, param_cursor + 1)
          | .error _ => .ok (bound, param_cursor + 1)
        | _ => .ok (bound, param_cursor + 1)
      else
        .ok (bound, param_cursor + 1)
  | .OtherValue rendered =>
    .error (EngineError.rewriteValidation
      ("unsupported SQL literal in validation mutation: " ++ rendered))

/-- `evaluate_sql_expr_to_json` (lib.rs lines 651-690). -/
def evaluate_sql_expr_to_json (O : Oracles) :
    Expr → List Json → Nat → Bool → Except EngineError (Json × Nat)
  | .Value value, params, param_cursor, parse_json_strings =>
    convert_sql_value_to_json O value params param_cursor parse_json_strings
  | .Function name args, params, param_cursor, _ =>
    let function_name := lowercase (objectNameDisplay name)
    if function_name == "json" then
      match args with
      | .List argument_list =>
        match argument_list with
        | [FunctionArg.UnnamedExpr inner] =>
          evaluate_sql_expr_to_json O inner params param_cursor true
        | [_] => .error (EngineError.rewriteValidation
            "json(...) only supports expression arguments in Rust validation")
        | _ => .error (EngineError.rewriteValidation "json(...) requires exactly one argument")
      | .OtherArguments =>
        .error (EngineError.rewriteValidation "json(...) requires an argument list")
    else
      .error (EngineError.rewriteValidation
        ("unsupported SQL function in state validation mutation: " ++ function_name))
  | .OtherExpr rendered, _, _, _ =>
    .error (EngineError.rewriteValidation
      ("unsupported SQL expression in validation mutation: " ++ rendered))

/-- The canonical column order assumed when the INSERT declares no columns. -/
def DEFAULT_INSERT_COLUMNS : List String :=
  ["entity_id", "schema_key", "file_id", "plugin_key", "snapshot_content",
   "schema_version", "metadata", "untracked", "version_id"]

/-- The row loop of `extract_insert_validation_rows`: arity check then the
three expression evaluations, threading the single parameter cursor. The
`getD` defaults are unreachable: each index was found by `findIdx?` in
`column_names` and the row's length equals `column_names.length` (Rust
indexes the row directly). -/
def extractRowsLoop (O : Oracles) (params : List Json) (column_names : List String)
    (schema_key_idx schema_version_idx snapshot_idx : Nat) :
    List (List Expr) → Nat → Except EngineError (List MutationValidationRow × Nat)
  | [], param_cursor => .ok ([], param_cursor)
  | row :: rest, param_cursor =>
    if row.length != column_names.length then
      .error (EngineError.rewriteValidation "insert row shape does not match declared columns")
    else
      match evaluate_sql_expr_to_json O (row.getD schema_key_idx (Expr.OtherExpr ""))
          params param_cursor false with
      | .error e => .error e
      | .ok (schema_key_value, cursor1) =>
        match evaluate_sql_expr_to_json O (row.getD schema_version_idx (Expr.OtherExpr ""))
            params cursor1 false with
        | .error e => .error e
        | .ok (schema_version_value, cursor2) =>
          match evaluate_sql_expr_to_json O (row.getD snapshot_idx (Expr.OtherExpr ""))
              params cursor2 true with
          | .error e => .error e
          | .ok (snapshot_content, cursor3) =>
            match schema_key_value with
            | Json.str schema_key =>
              match schema_version_value with
              | Json.str schema_version =>
                match extractRowsLoop O params column_names schema_key_idx
                    schema_version_idx snapshot_idx rest cursor3 with
                | .error e => .error e
                | .ok (rows, cursor_end) =>
                  .ok (⟨schema_key, schema_version, snapshot_content⟩ :: rows, cursor_end)
              | _ => .error (EngineError.rewriteValidation
                  "schema_version must resolve to a string")
            | _ => .error (EngineError.rewriteValidation "schema_key must resolve to a string")

/-- `extract_insert_validation_rows` (lib.rs lines 556-649). -/
def extract_insert_validation_rows (O : Oracles) (statement : Statement) (params : List Json)
    (param_cursor : Nat) : Except EngineError (List MutationValidationRow × Nat) :=
  match statement with
  | .Insert insert =>
    if !is_validation_target_name insert.table_name then .ok ([], param_cursor)
    else
      match insert.source with
      | none => .ok ([], param_cursor)
      | some source =>
        match source.body with
        | SetExpr.Values values_rows =>
          let column_names :=
            if insert.columns.isEmpty then DEFAULT_INSERT_COLUMNS
            else insert.columns.map (fun ident => lowercase ident.value)
          match List.findIdx? (fun name => name == "schema_key") column_names with
          | none => .error (EngineError.rewriteValidation
              "state mutation missing required schema_key column")
          | some schema_key_idx =>
            match List.findIdx? (fun name => name == "schema_version") column_names with
            | none => .error (EngineError.rewriteValidation
                "state mutation missing required schema_version column")
            | some schema_version_idx =>
              match List.findIdx? (fun name => name == "snapshot_content") column_names with
              | none => .error (EngineError.rewriteValidation
                  "state mutation missing required snapshot_content column")
              | some snapshot_idx =>
                extractRowsLoop O params column_names schema_key_idx schema_version_idx
                  snapshot_idx values_rows param_cursor
        | _ => .ok ([], param_cursor)
  | _ => .ok ([], param_cursor)

/-! ## CEL expression walk (lib.rs lines 834-868) -/

/-- The `x-lix-override-lixcols` entry loop: compile each string value. -/
def validateOverrideEntries (O : Oracles) :
    List (String × Json) → Except EngineError Unit
  | [] => .ok ()
  | (key, value) :: rest =>
    match value with
    | Json.str expression =>
      match O.celCompileErr expression with
      | some err => .error (EngineError.rewriteValidation
          ("invalid CEL expression in x-lix-override-lixcols." ++ key ++ ": " ++ err))
      | none => validateOverrideEntries O rest
    | _ => validateOverrideEntries O rest

/-- The `x-lix-default` step of the CEL walk: compile the value when it is
a string. -/
def celDefaultCheck (O : Oracles) (record : List (String × Json)) : Except EngineError Unit :=
  match Json.objGet record "x-lix-default" with
  | some (Json.str expression) =>
    match O.celCompileErr expression with
    | some err => Except.error (EngineError.rewriteValidation
        ("invalid CEL expression in x-lix-default: " ++ err))
    | none => Except.ok ()
  | _ => Except.ok ()

/-- The `x-lix-override-lixcols` step of the CEL walk: compile each string
entry when the value is an object. -/
def celOverrideCheck (O : Oracles) (record : List (String × Json)) : Except EngineError Unit :=
  match Json.objGet record "x-lix-override-lixcols" with
  | some (Json.obj overrides) => validateOverrideEntries O overrides
  | _ => Except.ok ()

mutual

/-- `validate_cel_expressions_in_schema` (lib.rs lines 834-868). -/
def validate_cel_expressions_in_schema (O : Oracles) : Json → Except EngineError Unit
  | .obj record => do
    celDefaultCheck O record
    celOverrideCheck O record
    validateObjValues O record
  | .arr values => validateArrValues O values
  | _ => .ok ()

/-- `record.values()` recursion of the CEL walk. -/
def validateObjValues (O : Oracles) : List (String × Json) → Except EngineError Unit
  | [] => .ok ()
  | (_, value) :: rest => do
    validate_cel_expressions_in_schema O value
    validateObjValues O rest

/-- Array recursion of the CEL walk. -/
def validateArrValues (O : Oracles) : List Json → Except EngineError Unit
  | [] => .ok ()
  | value :: rest => do
    validate_cel_expressions_in_schema O value
    validateArrValues O rest

end

/-! ## Plugin change detection gate (lib.rs lines 1161-1195) -/

/-- `should_run_plugin_change_detection`. -/
def should_run_plugin_change_detection (statement_kind sql : String)
    (params : List Json) : Bool :=
  if statement_kind != RUST_KIND_WRITE_REWRITE && statement_kind != RUST_KIND_VALIDATION then
    false
  else
    let lowered := lowercase sql
    if strContains lowered "insert into file" || strContains lowered "update file"
        || strContains lowered "delete from file" then
      true
    else
      let mutates_state := strContains lowered "insert into state"
        || strContains lowered "insert into state_by_version"
        || strContains lowered "insert into lix_internal_state_vtable"
        || strContains lowered "update state"
        || strContains lowered "update state_by_version"
        || strContains lowered "update lix_internal_state_vtable"
        || strContains lowered "delete from state"
        || strContains lowered "delete from state_by_version"
        || strContains lowered "delete from lix_internal_state_vtable"
      if !mutates_state then false
      else if strContains lowered "lix_file" then true
      else params.any (fun value =>
        match value with
        | Json.str text => text == "lix_file"
        | _ => false)

end LixEngine

namespace LixEngine

/-! ## Host callbacks and the execution orchestrator (lib.rs lines 110-191,
753-832, 1138-1159)

The Rust `HostCallbacks` trait object is modelled as a pair of functions
over an arbitrary host-state type `σ` (the host may be stateful; its
responses may depend on every call made so far). The engine's outbound
calls are the observable behaviour, so each engine computation is run in
`HostM`, which threads the host state and returns the list of calls made,
in order, alongside the `Result`. -/

/-- `ExecuteRequest`. -/
structure PluginChangeRequest where
  plugin_key : String
  before : List Nat
  after : List Nat

/-- `ExecuteRequest`. -/
structure ExecuteRequest where
  request_id : String
  sql : String
  params : List Json
  plugin_change_requests : List PluginChangeRequest

/-- `HostExecuteRequest`. -/
structure HostExecuteRequest where
  request_id : String
  sql : String
  params : List Json
  statement_kind : String

/-- `HostExecuteResponse`. -/
structure HostExecuteResponse where
  rows : List Json
  rows_affected : Int
  last_insert_row_id : Option Int

/-- `HostDetectChangesRequest`. -/
structure HostDetectChangesRequest where
  request_id : String
  plugin_key : String
  before : List Nat
  after : List Nat

/-- `HostDetectChangesResponse`. -/
structure HostDetectChangesResponse where
  changes : List Json

/-- `ExecuteResult`. -/
structure ExecuteResult where
  statement_kind : String
  rows : List Json
  rows_affected : Int
  last_insert_row_id : Option Int
  plugin_changes : List Json

/-- One observable call into the host. -/
inductive HostCall where
  | execute : HostExecuteRequest → HostCall
  | detectChanges : HostDetectChangesRequest → HostCall

/-- The `HostCallbacks` trait: a stateful implementation over state `σ`. -/
structure Host (σ : Type) where
  execute : σ → HostExecuteRequest → σ × Except EngineError HostExecuteResponse
  detect_changes : σ → HostDetectChangesRequest → σ × Except EngineError HostDetectChangesResponse

/-- Engine computations against a host: final host state, the host calls
made by this computation in order, and the `Result`. -/
def HostM (σ : Type) (α : Type) : Type :=
  σ → σ × List HostCall × Except EngineError α

/-- `HostM` return. -/
def HostM.pure (a : α) : HostM σ α := fun s => (s, [], .ok a)

/-- `HostM` sequencing: traces concatenate; an error short-circuits (Rust
`?`). -/
def HostM.bind (m : HostM σ α) (f : α → HostM σ β) : HostM σ β := fun s =>
  match m s with
  | (s2, trace1, .ok a) =>
    match f a s2 with
    | (s3, trace2, r) => (s3, trace1 ++ trace2, r)
  | (s2, trace1, .error e) => (s2, trace1, .error e)

instance : Monad (HostM σ) where
  pure := HostM.pure
  bind := HostM.bind

/-- Lift a pure `Result` (no host calls). -/
def HostM.liftE (r : Except EngineError α) : HostM σ α := fun s => (s, [], r)

/-- Fail (no host calls). -/
def HostM.throw (e : EngineError) : HostM σ α := fun s => (s, [], .error e)

/-- Rust `.map_err(f)` on a host computation. -/
def HostM.mapErr (m : HostM σ α) (f : EngineError → EngineError) : HostM σ α := fun s =>
  match m s with
  | (s2, trace, .ok a) => (s2, trace, .ok a)
  | (s2, trace, .error e) => (s2, trace, .error (f e))

/-- `host.execute(request)`: one observable `execute` call. -/
def callExecute (h : Host σ) (request : HostExecuteRequest) : HostM σ HostExecuteResponse :=
  fun s =>
    match h.execute s request with
    | (s2, r) => (s2, [HostCall.execute request], r)

/-- `host.detect_changes(request)`: one observable `detect_changes` call. -/
def callDetectChanges (h : Host σ) (request : HostDetectChangesRequest) :
    HostM σ HostDetectChangesResponse :=
  fun s =>
    match h.detect_changes s request with
    | (s2, r) => (s2, [HostCall.detectChanges request], r)

/-- The fixed SQL of `fetch_stored_schema`. -/
def FETCH_STORED_SCHEMA_SQL : String :=
  "SELECT value FROM stored_schema WHERE json_extract(value, '$.\"x-lix-key\"') = ? "
    ++ "AND json_extract(value, '$.\"x-lix-version\"') = ? ORDER BY rowid DESC LIMIT 1"

/-- The schema-load host request of `fetch_stored_schema` for one mutation
validation row. -/
def schemaLoadRequest (schema_key schema_version : String) : HostExecuteRequest :=
  { request_id := "rust-validation-schema-load"
    sql := FETCH_STORED_SCHEMA_SQL
    params := [Json.str schema_key, Json.str schema_version]
    statement_kind := RUST_KIND_PASSTHROUGH }

/-- `fetch_stored_schema` (lib.rs lines 778-832). -/
def fetch_stored_schema (O : Oracles) (h : Host σ) (schema_key schema_version : String) :
    HostM σ Json := do
  let response ← HostM.mapErr (callExecute h (schemaLoadRequest schema_key schema_version))
    (fun error => map_host_error error LIX_RUST_REWRITE_VALIDATION)
  match response.rows.head? with
  | none => HostM.throw (EngineError.rewriteValidation
      ("schema " ++ schema_key ++ "@" ++ schema_version ++ " is not stored"))
  | some first_row =>
    match first_row with
    | Json.obj record =>
      match Json.objGet record "value" with
      | none => HostM.throw (EngineError.rewriteValidation
          "stored_schema row missing 'value' column")
      | some (Json.str text) =>
        match O.jsonParse text with
        | .ok v => pure v
        | .error e => HostM.throw (EngineError.rewriteValidation
            ("stored schema payload is not valid JSON: " ++ e))
      | some value => pure value
    | Json.str text =>
      match O.jsonParse text with
      | .ok v => pure v
      | .error e => HostM.throw (EngineError.rewriteValidation
          ("stored schema payload is not valid JSON: " ++ e))
    | _ => HostM.throw (EngineError.rewriteValidation
        "stored schema query returned an unsupported row shape")

/-- `validate_single_mutation_row` (lib.rs lines 753-776). -/
def validate_single_mutation_row (O : Oracles) (h : Host σ) (row : MutationValidationRow) :
    HostM σ Unit := do
  let schema ← fetch_stored_schema O h row.schema_key row.schema_version
  HostM.liftE (validate_cel_expressions_in_schema O schema)
  match O.schemaCompileErr schema with
  | some err => HostM.throw (EngineError.rewriteValidation
      ("failed to compile schema " ++ row.schema_key ++ "@" ++ row.schema_version ++ ": " ++ err))
  | none =>
    match O.schemaValidateErr schema row.snapshot_content with
    | some detail => HostM.throw (EngineError.rewriteValidation
        ("snapshot for " ++ row.schema_key ++ "@" ++ row.schema_version
          ++ " failed JSON Schema validation: " ++ detail))
    | none => pure ()

/-- The per-extracted-row validation loop inside
`validate_state_mutation_rows`. -/
def validateRowsLoop (O : Oracles) (h : Host σ) :
    List MutationValidationRow → HostM σ Unit
  | [] => pure ()
  | row :: rest => do
    validate_single_mutation_row O h row
    validateRowsLoop O h rest

/-- The statement loop inside `validate_state_mutation_rows`, threading the
parameter cursor. -/
def validateStatementsLoop (O : Oracles) (h : Host σ) (params : List Json) :
    List Statement → Nat → HostM σ Unit
  | [], _ => pure ()
  | statement :: rest, param_cursor => do
    let extracted ← HostM.liftE
      (extract_insert_validation_rows O statement params param_cursor)
    validateRowsLoop O h extracted.1
    validateStatementsLoop O h params rest extracted.2

/-- `validate_state_mutation_rows` (lib.rs lines 512-538). -/
def validate_state_mutation_rows (O : Oracles) (h : Host σ) (sql : String)
    (params : List Json) (statement_kind : String) : HostM σ Unit :=
  let should_validate := statement_kind == RUST_KIND_VALIDATION
    || (statement_kind == RUST_KIND_WRITE_REWRITE && might_mutate_state_tables sql)
  if !should_validate then pure ()
  else
    match O.parseSql sql with
    | .error e => HostM.throw (EngineError.rewriteValidation
        ("failed to parse mutation SQL for validation: " ++ e))
    | .ok statements => validateStatementsLoop O h params statements 0

/-- `execute_plugin_change_detection` (lib.rs lines 1138-1159). -/
def execute_plugin_change_detection (h : Host σ) (request_id : String) :
    List PluginChangeRequest → HostM σ (List Json)
  | [] => pure []
  | request :: rest => do
    let response ← HostM.mapErr
      (callDetectChanges h
        { request_id := request_id
          plugin_key := request.plugin_key
          before := request.before
          after := request.after })
      (fun error => map_host_error error LIX_RUST_DETECT_CHANGES)
    let all_changes ← execute_plugin_change_detection h request_id rest
    pure (response.changes ++ all_changes)

/-- The validation prefix of `execute_with_host` (lib.rs lines 149-152):
the `Validation`-kind statement check followed by the state-mutation row
validation. Named so that the ordering theorems can refer to this phase;
`execute_with_host` below runs exactly this and then the rest of lib.rs
lines 154-190. -/
def validationPhase (O : Oracles) (h : Host σ) (request : ExecuteRequest) :
    HostM σ Unit := do
  let statement_kind := (plan_execute O request.sql).statement_kind
  if statement_kind == RUST_KIND_VALIDATION then
    HostM.liftE (validate_validation_mutations O request.sql)
  validate_state_mutation_rows O h request.sql request.params statement_kind

/-- `execute_with_host` (lib.rs lines 142-191). -/
def execute_with_host (O : Oracles) (h : Host σ) (request : ExecuteRequest) :
    HostM σ ExecuteResult := do
  let plan := plan_execute O request.sql
  let statement_kind := plan.statement_kind
  validationPhase O h request
  let rewritten_sql ← HostM.liftE (rewrite_sql_for_execution O request.sql statement_kind)
  let should_detect :=
    should_run_plugin_change_detection statement_kind request.sql request.params
  let execute_response ← HostM.mapErr
    (callExecute h
      { request_id := request.request_id
        sql := rewritten_sql
        params := request.params
        statement_kind := statement_kind })
    (fun error => map_host_error error LIX_RUST_SQLITE_EXECUTION)
  let plugin_changes ←
    if should_detect then
      execute_plugin_change_detection h request.request_id request.plugin_change_requests
    else
      pure []
  let rows_affected :=
    if plan.rows_affected_mode == RUST_ROWS_AFFECTED_ROWS_LENGTH then
      (execute_response.rows.length : Int)
    else
      execute_response.rows_affected
  pure { statement_kind := statement_kind
         rows := execute_response.rows
         rows_affected := rows_affected
         last_insert_row_id := execute_response.last_insert_row_id
         plugin_changes := plugin_changes }

end LixEngine

namespace LixEngine

/-! ## Claim-side definitions and theorems -/

/-- A statement the router counts as DML: SELECT/query, INSERT, UPDATE or
DELETE. -/
def is_dml_statement : Statement → Bool
  | .Query _ => true
  | .Insert _ => true
  | .Update _ _ _ _ _ => true
  | .Delete _ => true
  | .OtherStatement => false

/-- An INSERT/UPDATE/DELETE statement. -/
def is_write_statement : Statement → Bool
  | .Insert _ => true
  | .Update _ _ _ _ _ => true
  | .Delete _ => true
  | _ => false

/-- A SELECT/query statement. -/
def is_read_statement : Statement → Bool
  | .Query _ => true
  | _ => false

/-- The routing rule exactly as claim C3 words it (a second definition,
following the claim's text, to be compared with `route_statement_kind`,
which follows the source). -/
def route_claim_c3 (O : Oracles) (sql : String) : String :=
  match O.parseSql sql with
  | .error _ => RUST_KIND_PASSTHROUGH
  | .ok statements =>
    if statements.isEmpty then RUST_KIND_PASSTHROUGH
    else if statements.any (fun s => !is_dml_statement s) then RUST_KIND_PASSTHROUGH
    else if statements.any is_write_statement then
      if strContains (lowercase sql) "insert into state"
          || strContains (lowercase sql) "insert into state_all"
          || strContains (lowercase sql) "update state"
          || strContains (lowercase sql) "update state_all"
          || strContains (lowercase sql) "delete from state"
          || strContains (lowercase sql) "delete from state_all"
      then RUST_KIND_VALIDATION
      else RUST_KIND_WRITE_REWRITE
    else if statements.any is_read_statement then RUST_KIND_READ_REWRITE
    else RUST_KIND_PASSTHROUGH

/-! ## Specification-side definitions used by the theorems -/

/-- The statement loop of `validate_state_mutation_rows` without the host
calls: all mutation validation rows the engine extracts, in order, threading
the single parameter cursor. -/
def extract_rows_pure (O : Oracles) (params : List Json) :
    List Statement → Nat → Except EngineError (List MutationValidationRow)
  | [], _ => .ok []
  | stmt :: rest, cursor =>
    match extract_insert_validation_rows O stmt params cursor with
    | .error e => .error e
    | .ok (rows, cursor2) =>
      match extract_rows_pure O params rest cursor2 with
      | .error e => .error e
      | .ok more => .ok (rows ++ more)

/-- The mutation validation rows of a request (the pure shadow of
`validate_state_mutation_rows`): empty when the gate does not fire. -/
def mutation_validation_rows (O : Oracles) (sql : String) (params : List Json)
    (statement_kind : String) : Except EngineError (List MutationValidationRow) :=
  let should_validate := statement_kind == RUST_KIND_VALIDATION
    || (statement_kind == RUST_KIND_WRITE_REWRITE && might_mutate_state_tables sql)
  if !should_validate then .ok []
  else
    match O.parseSql sql with
    | .error e => .error (EngineError.rewriteValidation
        ("failed to parse mutation SQL for validation: " ++ e))
    | .ok statements => extract_rows_pure O params statements 0

/-- The CTE predicate as claim C5 words it: for target `state`,
`(<user_selection>) AND (version_id IN (SELECT version_id FROM
active_version))` (or the filter alone with no user WHERE); otherwise
exactly the user's selection, or absent. -/
def claim_c5_predicate (O : Oracles) (selection : Option Expr)
    (target : WriteTarget) : Option String :=
  if target = WriteTarget.State then
    some (match selection with
      | some e => "(" ++ O.exprStr e ++ ") AND ("
          ++ "version_id IN (SELECT version_id FROM active_version)" ++ ")"
      | none => "version_id IN (SELECT version_id FROM active_version)")
  else
    selection.map O.exprStr

/-- The INSERT rewrite output as claim C6 words it: column list `C`
extended with `version_id`, and every VALUES row with the active-version
scalar appended as its final element. -/
def claim_c6_sql (O : Oracles) (columns : List Ident) (rows : List (List Expr)) : String :=
  let cols_sql := String.intercalate ", "
    (((columns.map (fun c => c.value)) ++ ["version_id"]).map quote_ident)
  let rows_sql := String.intercalate ", " (rows.map (fun row =>
    "(" ++ String.intercalate ", "
      (row.map O.exprStr ++ ["(SELECT version_id FROM active_version)"]) ++ ")"))
  "WITH \"" ++ MUTATION_ROW_CTE ++ "\" (" ++ cols_sql ++ ") AS (VALUES " ++ rows_sql
    ++ ") INSERT INTO " ++ STATE_BY_VERSION ++ " (" ++ cols_sql ++ ") SELECT " ++ cols_sql
    ++ " FROM \"" ++ MUTATION_ROW_CTE ++ "\""

/-- A computation that makes no host calls. -/
def Silent (m : HostM σ α) : Prop := ∀ s : σ, ((m s).2.1 : List HostCall) = []

/-- A computation whose errors all carry one of the seven stable engine
codes. -/
def StableErrors (m : HostM σ α) : Prop :=
  ∀ (s : σ) (e : EngineError), (m s).2.2 = .error e → e.code ∈ STABLE_ENGINE_CODES

/-- A pure result whose error (if any) carries a stable engine code. -/
def StableE (r : Except EngineError α) : Prop :=
  ∀ e, r = .error e → e.code ∈ STABLE_ENGINE_CODES

/-! ## Concrete instances used by witnesses and counterexamples -/

/-- A trivial oracle assignment (used where a witness does not exercise the
oracle). -/
def trivialOracles : Oracles where
  parseSql := fun _ => .error "no parse"
  stmtStr := fun _ => ""
  exprStr := fun _ => ""
  jsonParse := fun _ => .error "no json"
  f64Finite := fun _ => false
  celCompileErr := fun _ => none
  schemaCompileErr := fun _ => none
  schemaValidateErr := fun _ _ => none

/-- One `?` placeholder expression. -/
def placeholderExpr : Expr := Expr.Value (SqlValue.Placeholder "?")

/-- The SQL text of the C1 counterexample request. -/
def fileInsertSqlText : String := "insert into file (id) values (?)"

/-- The parse of `fileInsertSqlText`: a single-row INSERT into `file`. -/
def fileInsertStmt : Statement := Statement.Insert
  { table_name := [⟨"file"⟩]
    columns := [⟨"id"⟩]
    source := some (Query.mk none (SetExpr.Values [[placeholderExpr]]))
    onConflict := none
    returning := none
    partitioned := none
    after_columns := []
    table_alias := none }

/-- Oracles whose parser knows exactly `fileInsertSqlText`. -/
def fileInsertOracles : Oracles :=
  { trivialOracles with
    parseSql := fun sql =>
      if sql = fileInsertSqlText then .ok [fileInsertStmt] else .error "no parse" }

/-- A stateless host whose `execute` reports `rows_affected = -1`. -/
def negativeChangesHost : Host Unit where
  execute := fun _ _ => ((), .ok { rows := [], rows_affected := -1, last_insert_row_id := none })
  detect_changes := fun _ _ => ((), .ok { changes := [] })

/-- The C1 counterexample request: a plain write (no state table, so no
validation), executed under the `sqlite_changes` rows-affected policy. -/
def negativeChangesRequest : ExecuteRequest :=
  { request_id := "req-neg"
    sql := fileInsertSqlText
    params := []
    plugin_change_requests := [] }

/-- The C2 failing input: `insert into state (entity_id, schema_key,
schema_version, snapshot_content) values (?, ?, ?, ?)`. -/
def c2InsertStmt : Statement := Statement.Insert
  { table_name := [⟨"state"⟩]
    columns := [⟨"entity_id"⟩, ⟨"schema_key"⟩, ⟨"schema_version"⟩, ⟨"snapshot_content"⟩]
    source := some (Query.mk none
      (SetExpr.Values [[placeholderExpr, placeholderExpr, placeholderExpr, placeholderExpr]]))
    onConflict := none
    returning := none
    partitioned := none
    after_columns := []
    table_alias := none }

/-- The C2 failing parameter list. -/
def c2Params : List Json := [Json.str "e", Json.str "k", Json.str "1", Json.str "2"]

/-- Oracles for the C2 evaluation: a JSON parser that knows the numeral
strings appearing in `c2Params`. -/
def c2Oracles : Oracles :=
  { trivialOracles with
    jsonParse := fun s =>
      if s = "1" then .ok (Json.num 1)
      else if s = "2" then .ok (Json.num 2)
      else .error "no json" }

/-- A single SELECT statement (body shape irrelevant to routing). -/
def readSelectStmt : Statement := Statement.Query (Query.mk none SetExpr.OtherSetExpr)

/-- Oracles whose parser knows exactly `select 1`. -/
def readOracles : Oracles :=
  { trivialOracles with
    parseSql := fun sql => if sql = "select 1" then .ok [readSelectStmt] else .error "no parse" }

/-- A stateless host answering every execute with one row. -/
def plainReadHost : Host Unit where
  execute := fun _ _ =>
    ((), .ok { rows := [Json.num 1], rows_affected := 99, last_insert_row_id := none })
  detect_changes := fun _ _ => ((), .ok { changes := [] })

/-- A plain read request (`rows_length` policy). -/
def readRequest : ExecuteRequest :=
  { request_id := "req-read"
    sql := "select 1"
    params := []
    plugin_change_requests := [] }

/-! ## Vtable-reference predicate (the positions the read rewriter visits) -/

mutual

/-- Whether the read rewriter's traversal of a query reaches a base-table
reference whose last name segment is `lix_internal_state_vtable` (and that
is not a table function). -/
def queryHasVtableRef : Query → Bool
  | .mk with_ctes body =>
    (match with_ctes with
     | none => false
     | some ctes => cteListHasVtableRef ctes) || setExprHasVtableRef body

/-- CTE-list component of `queryHasVtableRef`. -/
def cteListHasVtableRef : List Cte → Bool
  | [] => false
  | Cte.mk q :: rest => queryHasVtableRef q || cteListHasVtableRef rest

/-- Set-expression component of `queryHasVtableRef`. -/
def setExprHasVtableRef : SetExpr → Bool
  | .Select sel => selectHasVtableRef sel
  | .Query q => queryHasVtableRef q
  | .SetOperation l r => setExprHasVtableRef l || setExprHasVtableRef r
  | _ => false

/-- SELECT component of `queryHasVtableRef`. -/
def selectHasVtableRef : SelectBody → Bool
  | .mk from_list => twjListHasVtableRef from_list

/-- FROM-list component of `queryHasVtableRef`. -/
def twjListHasVtableRef : List TableWithJoins → Bool
  | [] => false
  | twj :: rest => twjHasVtableRef twj || twjListHasVtableRef rest

/-- Table-with-joins component of `queryHasVtableRef`. -/
def twjHasVtableRef : TableWithJoins → Bool
  | .mk relation joins => tableFactorHasVtableRef relation || joinListHasVtableRef joins

/-- Join-list component of `queryHasVtableRef`. -/
def joinListHasVtableRef : List Join → Bool
  | [] => false
  | Join.mk r :: rest => tableFactorHasVtableRef r || joinListHasVtableRef rest

/-- Table-factor component of `queryHasVtableRef`. -/
def tableFactorHasVtableRef : TableFactor → Bool
  | .Table name _ args => !args.isSome && is_target_vtable_name name
  | .Derived _ q _ => queryHasVtableRef q
  | .NestedJoin twj => twjHasVtableRef twj
  | .Pivot t => tableFactorHasVtableRef t
  | .Unpivot t => tableFactorHasVtableRef t
  | .MatchRecognize t => tableFactorHasVtableRef t
  | .OtherFactor => false

end

/-- Whether a statement contains a vtable reference in a position the read
rewriter visits (only SELECT statements are traversed). -/
def statementHasVtableRef : Statement → Bool
  | .Query q => queryHasVtableRef q
  | _ => false

/-- The schema-load call for one mutation validation row. -/
def schemaCallOf (row : MutationValidationRow) : HostCall :=
  HostCall.execute (schemaLoadRequest row.schema_key row.schema_version)

/-- The detect-changes call for one plugin change request. -/
def detectCallOf (request_id : String) (p : PluginChangeRequest) : HostCall :=
  HostCall.detectChanges ⟨request_id, p.plugin_key, p.before, p.after⟩

/-- The router's scan loop, characterized: `none` exactly when some
statement is not DML, otherwise the accumulated read/write flags. -/
theorem scanStatements_eq (stmts : List Statement) (r w : Bool) :
    scanStatements stmts r w =
      if stmts.any (fun s => !is_dml_statement s) then none
      else some (r || stmts.any is_read_statement, w || stmts.any is_write_statement) := by
  induction stmts generalizing r w with
  | nil => simp [scanStatements]
  | cons s rest ih =>
    cases s <;>
      simp [scanStatements, ih, is_dml_statement, is_read_statement, is_write_statement,
        Bool.or_assoc, Bool.or_comm, Bool.or_left_comm]

/-- C3: for every SQL string, `route_statement_kind` returns `Passthrough`
when parsing fails, yields zero statements, or some parsed statement is not
SELECT/INSERT/UPDATE/DELETE; otherwise `Validation` or `WriteRewrite` when
some statement is a write (decided by the lowercased-substring test for
state-view mutations), else `ReadRewrite` when some statement is a read,
else `Passthrough`. -/
theorem route_statement_kind_matches_claim (O : Oracles) (sql : String) :
    route_statement_kind O sql = route_claim_c3 O sql := by
  unfold route_statement_kind route_claim_c3
  cases hp : O.parseSql sql with
  | error e => rfl
  | ok statements =>
    cases statements with
    | nil => rfl
    | cons s rest =>
      simp only [scanStatements_eq]
      by_cases hdml : (s :: rest).any (fun t => !is_dml_statement t)
      · simp [hdml]
      · simp only [hdml, if_false, Bool.false_or, List.isEmpty_cons, Bool.false_eq_true,
          not_false_eq_true, reduceIte]
        simp [is_validation_sql]

/-- C9: `plan_execute` fixes `statement_kind` to the router's result,
`preprocess_mode = none` exactly for `Passthrough` (else `full`), and
`rows_affected_mode = rows_length` exactly for `ReadRewrite`/`Passthrough`
(else `sqlite_changes`). -/
theorem plan_execute_matches_claim (O : Oracles) (sql : String) :
    (plan_execute O sql).statement_kind = route_statement_kind O sql
    ∧ ((plan_execute O sql).preprocess_mode = "none"
        ↔ route_statement_kind O sql = RUST_KIND_PASSTHROUGH)
    ∧ ((plan_execute O sql).preprocess_mode = "full"
        ↔ route_statement_kind O sql ≠ RUST_KIND_PASSTHROUGH)
    ∧ ((plan_execute O sql).rows_affected_mode = RUST_ROWS_AFFECTED_ROWS_LENGTH
        ↔ (route_statement_kind O sql = RUST_KIND_READ_REWRITE
            ∨ route_statement_kind O sql = RUST_KIND_PASSTHROUGH))
    ∧ ((plan_execute O sql).rows_affected_mode = RUST_ROWS_AFFECTED_SQLITE_CHANGES
        ↔ ¬(route_statement_kind O sql = RUST_KIND_READ_REWRITE
            ∨ route_statement_kind O sql = RUST_KIND_PASSTHROUGH)) := by
  have hnf : ("none" : String) ≠ "full" := by decide
  have hfn : ("full" : String) ≠ "none" := by decide
  have hrs : RUST_ROWS_AFFECTED_ROWS_LENGTH ≠ RUST_ROWS_AFFECTED_SQLITE_CHANGES := by decide
  have hsr : RUST_ROWS_AFFECTED_SQLITE_CHANGES ≠ RUST_ROWS_AFFECTED_ROWS_LENGTH := by decide
  refine ⟨rfl, ?_, ?_, ?_, ?_⟩ <;>
    unfold plan_execute <;>
    by_cases h1 : route_statement_kind O sql = RUST_KIND_PASSTHROUGH <;>
    by_cases h2 : route_statement_kind O sql = RUST_KIND_READ_REWRITE <;>
    simp [h1, h2, hnf, hfn, hrs, hsr]
end LixEngine

namespace LixEngine

/-! ## HostM reasoning infrastructure -/

theorem HostM.bind_def (m : HostM σ α) (f : α → HostM σ β) :
    (m >>= f) = HostM.bind m f := rfl

theorem HostM.pure_def (a : α) : (Pure.pure a : HostM σ α) = HostM.pure a := rfl

theorem HostM.pure_apply (a : α) (s : σ) : (HostM.pure a : HostM σ α) s = (s, [], .ok a) := rfl

theorem HostM.liftE_apply (r : Except EngineError α) (s : σ) :
    (HostM.liftE r : HostM σ α) s = (s, [], r) := rfl

theorem HostM.throw_apply (e : EngineError) (s : σ) :
    (HostM.throw e : HostM σ α) s = (s, [], .error e) := rfl

theorem HostM.bind_apply (m : HostM σ α) (f : α → HostM σ β) (s : σ) :
    (HostM.bind m f) s =
      match m s with
      | (s2, t1, .ok a) => ((f a s2).1, t1 ++ (f a s2).2.1, (f a s2).2.2)
      | (s2, t1, .error e) => (s2, t1, .error e) := by
  unfold HostM.bind
  rcases hm : m s with ⟨s2, t1, r⟩
  cases r with
  | ok a => rcases hf : f a s2 with ⟨s3, t2, r2⟩; simp [hf]
  | error e => simp

theorem HostM.mapErr_apply (m : HostM σ α) (f : EngineError → EngineError) (s : σ) :
    (HostM.mapErr m f) s =
      match m s with
      | (s2, t, .ok a) => (s2, t, .ok a)
      | (s2, t, .error e) => (s2, t, .error (f e)) := by
  unfold HostM.mapErr
  rcases hm : m s with ⟨s2, t, r⟩
  cases r <;> simp

theorem callExecute_apply (h : Host σ) (r : HostExecuteRequest) (s : σ) :
    (callExecute h r) s = ((h.execute s r).1, [HostCall.execute r], (h.execute s r).2) := by
  unfold callExecute
  rcases hh : h.execute s r with ⟨s2, res⟩
  simp

theorem callDetectChanges_apply (h : Host σ) (r : HostDetectChangesRequest) (s : σ) :
    (callDetectChanges h r) s
      = ((h.detect_changes s r).1, [HostCall.detectChanges r], (h.detect_changes s r).2) := by
  unfold callDetectChanges
  rcases hh : h.detect_changes s r with ⟨s2, res⟩
  simp

theorem silent_pure (a : α) : Silent (HostM.pure a : HostM σ α) := fun _ => rfl

theorem silent_pure' (a : α) : Silent (Pure.pure a : HostM σ α) := fun _ => rfl

theorem silent_liftE (r : Except EngineError α) : Silent (HostM.liftE r : HostM σ α) :=
  fun _ => rfl

theorem silent_throw (e : EngineError) : Silent (HostM.throw e : HostM σ α) := fun _ => rfl

theorem silent_bind {m : HostM σ α} {f : α → HostM σ β}
    (hm : Silent m) (hf : ∀ a, Silent (f a)) : Silent (HostM.bind m f) := by
  intro s
  rw [HostM.bind_apply]
  rcases hms : m s with ⟨s2, t1, r⟩
  have ht1 : t1 = [] := by have := hm s; rw [hms] at this; exact this
  cases r with
  | ok a => simp [ht1, hf a s2]
  | error e => simp [ht1]

theorem trace_single_call {m : HostM σ α} {f : α → HostM σ β} {c : HostCall}
    (hm : ∀ s : σ, (m s).2.1 = [c]) (hf : ∀ a, Silent (f a)) :
    ∀ s : σ, ((HostM.bind m f) s).2.1 = [c] := by
  intro s
  rw [HostM.bind_apply]
  rcases hms : m s with ⟨s2, t1, r⟩
  have ht1 : t1 = [c] := by have := hm s; rw [hms] at this; exact this
  cases r with
  | ok a => simp [ht1, hf a s2]
  | error e => simp [ht1]

theorem mapErr_trace (m : HostM σ α) (f : EngineError → EngineError) (s : σ) :
    ((HostM.mapErr m f) s).2.1 = (m s).2.1 := by
  rw [HostM.mapErr_apply]
  rcases hms : m s with ⟨s2, t, r⟩
  cases r <;> simp

theorem callExecute_trace (h : Host σ) (r : HostExecuteRequest) :
    ∀ s : σ, ((callExecute h r) s).2.1 = [HostCall.execute r] := by
  intro s; rw [callExecute_apply]

/-- The schema-load fetch makes exactly one host call: the schema-load
`execute` request. -/
theorem fetch_stored_schema_trace (O : Oracles) (h : Host σ) (key ver : String) :
    ∀ s : σ, ((fetch_stored_schema O h key ver) s).2.1
      = [HostCall.execute (schemaLoadRequest key ver)] := by
  unfold fetch_stored_schema
  rw [HostM.bind_def]
  apply trace_single_call
  · intro s
    rw [mapErr_trace]
    exact callExecute_trace h _ s
  · intro response s
    rcases hrow : response.rows.head? with _ | first_row
    · simp only [hrow]
      rfl
    · simp only [hrow]
      cases first_row
      case obj record =>
        rcases hv : Json.objGet record "value" with _ | v
        · simp only [hv]; rfl
        · simp only [hv]
          cases v
          case str text =>
            rcases hj : O.jsonParse text with e | j <;> simp only [hj] <;> rfl
          all_goals rfl
      case str text =>
        rcases hj : O.jsonParse text with e | j <;> simp only [hj] <;> rfl
      all_goals rfl

end LixEngine

namespace LixEngine

/-- Each mutation validation row's check makes exactly one host call: the
schema load for that row. -/
theorem validate_single_mutation_row_trace (O : Oracles) (h : Host σ)
    (row : MutationValidationRow) :
    ∀ s : σ, ((validate_single_mutation_row O h row) s).2.1
      = [HostCall.execute (schemaLoadRequest row.schema_key row.schema_version)] := by
  unfold validate_single_mutation_row
  rw [HostM.bind_def]
  apply trace_single_call
  · exact fetch_stored_schema_trace O h _ _
  · intro schema
    rw [HostM.bind_def]
    apply silent_bind (silent_liftE _)
    intro _ s
    rcases hc : O.schemaCompileErr schema with _ | err
    · simp only [hc]
      rcases hv : O.schemaValidateErr schema row.snapshot_content with _ | d <;>
        simp only [hv] <;> rfl
    · simp only [hc]; rfl

/-- C10: for every mutation validation row, the schema-load call the host
receives is exactly one `execute` whose `request_id` is the fixed string
`rust-validation-schema-load`, whose `statement_kind` is `passthrough`, and
whose params are exactly the two strings `schema_key` and `schema_version`
of that row, in that order. -/
theorem schema_load_call_shape (O : Oracles) (h : Host σ) (s : σ)
    (row : MutationValidationRow) :
    ((validate_single_mutation_row O h row) s).2.1
        = [HostCall.execute (schemaLoadRequest row.schema_key row.schema_version)]
    ∧ (schemaLoadRequest row.schema_key row.schema_version).request_id
        = "rust-validation-schema-load"
    ∧ (schemaLoadRequest row.schema_key row.schema_version).statement_kind
        = RUST_KIND_PASSTHROUGH
    ∧ (schemaLoadRequest row.schema_key row.schema_version).params
        = [Json.str row.schema_key, Json.str row.schema_version] :=
  ⟨validate_single_mutation_row_trace O h row s, rfl, rfl, rfl⟩

/-- `combine_write_predicate` computes exactly the predicate claim C5
describes, for every target. -/
theorem combine_write_predicate_eq_claim (O : Oracles) (sel : Option Expr)
    (t : WriteTarget) :
    combine_write_predicate O sel t = claim_c5_predicate O sel t := by
  cases t <;> cases sel <;> rfl

/-- C5: for every UPDATE or DELETE the write rewriter rewrites, the
predicate emitted inside the `__lix_mutation_rows` CTE is the user selection
AND the active-version filter when the target's last segment is `state`
(the filter alone without a user WHERE), and exactly the user's selection
(or absent) for `state_all`, `state_by_version` and the vtable. -/
theorem update_delete_predicate_matches_claim (O : Oracles) (name : ObjectName)
    (target_table : String) (selection : Option Expr) (assignments : List Assignment)
    (hres : resolve_physical_target (classify_write_target name) = some target_table) :
    combine_write_predicate O selection (classify_write_target name)
        = claim_c5_predicate O selection (classify_write_target name)
    ∧ rewrite_update_for_write_rewrite O
        (TableWithJoins.mk (TableFactor.Table name none none) []) assignments none selection none
      = some (mutationCteSql target_table
          (claim_c5_predicate O selection (classify_write_target name))
          ("UPDATE " ++ target_table ++ " SET "
            ++ String.intercalate ", " (assignments.map (fun a => a.rendered))))
    ∧ rewrite_delete_for_write_rewrite O
        { tables := []
          from_clause := FromTable.WithFromKeyword
            [TableWithJoins.mk (TableFactor.Table name none none) []]
          using_clause := none
          returning := none
          order_by := []
          limit := none
          selection := selection }
      = some (mutationCteSql target_table
          (claim_c5_predicate O selection (classify_write_target name))
          ("DELETE FROM " ++ target_table)) := by
  refine ⟨combine_write_predicate_eq_claim O selection _, ?_, ?_⟩
  · unfold rewrite_update_for_write_rewrite
    simp [hres, combine_write_predicate_eq_claim]
  · unfold rewrite_delete_for_write_rewrite
    simp [hres, combine_write_predicate_eq_claim, FromTable.tables]

theorem c5_witness :
    combine_write_predicate trivialOracles (some (Expr.OtherExpr "schema_key = ?"))
        (classify_write_target [⟨"state"⟩])
      = claim_c5_predicate trivialOracles (some (Expr.OtherExpr "schema_key = ?"))
        (classify_write_target [⟨"state"⟩]) :=
  (update_delete_predicate_matches_claim trivialOracles [⟨"state"⟩] STATE_BY_VERSION
    (some (Expr.OtherExpr "schema_key = ?")) [Assignment.mk "untracked = 1"] (by rfl)).1

end LixEngine

namespace LixEngine

/-- When every row has the declared arity, the INSERT row renderer emits
each row's `Display`ed expressions, with the active-version scalar appended
when requested. -/
theorem renderInsertRows_ok (O : Oracles) (n : Nat) (b : Bool) (rows : List (List Expr))
    (h : ∀ row ∈ rows, row.length = n) :
    renderInsertRows O n b rows = .ok (rows.map (fun row =>
      "(" ++ String.intercalate ", "
        (row.map O.exprStr
          ++ (if b then ["(SELECT version_id FROM active_version)"] else [])) ++ ")")) := by
  induction rows with
  | nil => rfl
  | cons row rest ih =>
    have hr : row.length = n := h row (by simp)
    have hrest : ∀ r ∈ rest, r.length = n := fun r hrm => h r (by simp [hrm])
    simp [renderInsertRows, hr, ih hrest]

/-- When some row's arity differs from the declared one, the renderer fails
with the protocol-mismatch error. -/
theorem renderInsertRows_err (O : Oracles) (n : Nat) (b : Bool) (rows : List (List Expr))
    (h : ∃ row ∈ rows, row.length ≠ n) :
    renderInsertRows O n b rows
      = .error (EngineError.protocolMismatch
          "insert row shape does not match declared columns") := by
  induction rows with
  | nil => simp at h
  | cons row rest ih =>
    by_cases hr : row.length = n
    · obtain ⟨r, hrm, hrn⟩ := h
      rcases List.mem_cons.mp hrm with hre | hrm2
      · exact absurd (hre ▸ hrn) (by simp [hr])
      · simp [renderInsertRows, hr, ih ⟨r, hrm2, hrn⟩]
    · simp [renderInsertRows, hr]

/-- C6: for every INSERT the write rewriter rewrites whose target is
`state` and whose declared column list `C` lacks `version_id`
(case-insensitively), the emitted SQL's column list is `C` extended with
`version_id` and every emitted VALUES row has the scalar
`(SELECT version_id FROM active_version)` appended as its final element;
any source row whose arity differs from `|C|` fails with code
`LIX_RUST_PROTOCOL_MISMATCH`. -/
theorem insert_rewrite_matches_claim (O : Oracles) (i : Insert) (src : Query)
    (rows : List (List Expr))
    (hOn : i.onConflict = none) (hRet : i.returning = none) (hPart : i.partitioned = none)
    (hAfter : i.after_columns = []) (hAlias : i.table_alias = none)
    (hSrc : i.source = some src) (hBody : src.body = SetExpr.Values rows)
    (hCols : i.columns ≠ [])
    (hState : classify_write_target i.table_name = WriteTarget.State)
    (hNoVid : ∀ c ∈ i.columns, eqIgnoreAsciiCase c.value "version_id" = false) :
    ((∀ row ∈ rows, row.length = i.columns.length) →
      rewrite_insert_for_write_rewrite O i = .ok (some (claim_c6_sql O i.columns rows)))
    ∧ ((∃ row ∈ rows, row.length ≠ i.columns.length) →
      ∃ e, rewrite_insert_for_write_rewrite O i = .error e
        ∧ e.code = LIX_RUST_PROTOCOL_MISMATCH) := by
  have hempty : i.columns.isEmpty = false := by
    cases hcl : i.columns with
    | nil => exact absurd hcl hCols
    | cons a l => rfl
  have hany : ((i.columns.map (fun c => c.value)).any
      (fun column => eqIgnoreAsciiCase column "version_id")) = false := by
    rw [List.any_eq_false]
    intro c hc
    obtain ⟨d, hd, rfl⟩ := List.mem_map.mp hc
    simp [hNoVid d hd]
  have hbeq : (WriteTarget.State == WriteTarget.State) = true := rfl
  constructor
  · intro hAr
    unfold rewrite_insert_for_write_rewrite
    simp only [hOn, hRet, hPart, hAfter, hAlias, hSrc, hState, hBody, hempty, hany, hbeq,
      Option.isSome_none, Bool.or_self, Bool.or_false, Bool.false_or, List.isEmpty_nil,
      Bool.not_false, Bool.not_true, Bool.and_true, Bool.true_and, Bool.false_eq_true,
      reduceIte, resolve_physical_target]
    rw [renderInsertRows_ok O i.columns.length true rows hAr]
    rfl
  · intro hAr
    unfold rewrite_insert_for_write_rewrite
    simp only [hOn, hRet, hPart, hAfter, hAlias, hSrc, hState, hBody, hempty, hany, hbeq,
      Option.isSome_none, Bool.or_self, Bool.or_false, Bool.false_or, List.isEmpty_nil,
      Bool.not_false, Bool.not_true, Bool.and_true, Bool.true_and, Bool.false_eq_true,
      reduceIte, resolve_physical_target]
    rw [renderInsertRows_err O i.columns.length true rows hAr]
    exact ⟨_, rfl, rfl⟩

theorem c6_witness :
    rewrite_insert_for_write_rewrite trivialOracles
      { table_name := [⟨"state"⟩]
        columns := [⟨"entity_id"⟩]
        source := some (Query.mk none (SetExpr.Values [[placeholderExpr]]))
        onConflict := none
        returning := none
        partitioned := none
        after_columns := []
        table_alias := none }
      = .ok (some (claim_c6_sql trivialOracles [⟨"entity_id"⟩] [[placeholderExpr]])) :=
  (insert_rewrite_matches_claim trivialOracles _ (Query.mk none (SetExpr.Values [[placeholderExpr]]))
    [[placeholderExpr]] rfl rfl rfl rfl rfl rfl rfl (by decide) (by decide)
    (by intro c hc; simp at hc; subst hc; decide)).1
    (by intro row hr; simp at hr; subst hr; rfl)

end LixEngine

namespace LixEngine

/-- C2 (evaluation of the code at the failing input): for
`insert into state (entity_id, schema_key, schema_version, snapshot_content)
values (?, ?, ?, ?)` with params `["e", "k", "1", "2"]`, the engine binds
`schema_key` to `params[0]` (the entry belonging to the `entity_id`
placeholder), `schema_version` to `params[1]` and `snapshot_content` to
`params[2]`, leaving the cursor at 3: the cursor advances only through the
three evaluated expressions, not across all placeholders in source order,
so the k-th placeholder does not bind the k-th parameter as the spec
requires (`schema_key` should have been `"k" = params[1]`). -/
theorem c2_cursor_evaluation :
    extract_insert_validation_rows c2Oracles c2InsertStmt c2Params 0
      = .ok ([{ schema_key := "e", schema_version := "k",
                snapshot_content := Json.num 1 }], 3)
    ∧ c2Params.get? 1 = some (Json.str "k") := ⟨rfl, rfl⟩

/-- Splitting a successful `HostM.bind` run into its two stages. -/
theorem bind_ok_decomp (m : HostM σ α) (f : α → HostM σ β) (s : σ) (b : β)
    (hb : ((HostM.bind m f) s).2.2 = .ok b) :
    ∃ a, (m s).2.2 = .ok a ∧ ((f a (m s).1)).2.2 = .ok b := by
  rw [HostM.bind_apply] at hb
  rcases hms : m s with ⟨s2, t1, r⟩
  rw [hms] at hb
  cases r with
  | ok a => exact ⟨a, rfl, by simpa using hb⟩
  | error e => simp at hb

/-- Every successful `execute_with_host` result carries the host's rows and
row id, the planned statement kind, and the rows-affected policy choice. -/
theorem execute_with_host_ok_shape (O : Oracles) (h : Host σ) (req : ExecuteRequest)
    (s : σ) (result : ExecuteResult)
    (hok : ((execute_with_host O h req) s).2.2 = .ok result) :
    ∃ response : HostExecuteResponse,
      result.rows = response.rows
      ∧ result.last_insert_row_id = response.last_insert_row_id
      ∧ result.statement_kind = (plan_execute O req.sql).statement_kind
      ∧ result.rows_affected =
          (if (plan_execute O req.sql).rows_affected_mode == RUST_ROWS_AFFECTED_ROWS_LENGTH
           then (response.rows.length : Int)
           else response.rows_affected) := by
  unfold execute_with_host at hok
  simp only [HostM.bind_def] at hok
  obtain ⟨_, hval, hok2⟩ := bind_ok_decomp _ _ _ _ hok
  obtain ⟨rewritten_sql, hrw, hok3⟩ := bind_ok_decomp _ _ _ _ hok2
  obtain ⟨response, hexec, hok4⟩ := bind_ok_decomp _ _ _ _ hok3
  refine ⟨response, ?_⟩
  split at hok4 <;>
  · obtain ⟨plugin_changes, hdet, hok5⟩ := bind_ok_decomp _ _ _ _ hok4
    simp only [HostM.pure_def, HostM.pure_apply, Except.ok.injEq] at hok5
    rw [← hok5]
    exact ⟨rfl, rfl, rfl, rfl⟩

/-- C1 (counterexample to the claim as stated): a host reporting
`rows_affected = -1` for a plain write makes `execute_with_host` succeed
with a negative `rows_affected`. -/
theorem c1_counterexample :
    ((execute_with_host fileInsertOracles negativeChangesHost negativeChangesRequest) ()).2.2
      = .ok { statement_kind := RUST_KIND_WRITE_REWRITE, rows := [], rows_affected := -1,
              last_insert_row_id := none, plugin_changes := [] }
    ∧ ((-1 : Int) < 0) := ⟨rfl, by decide⟩

/-- C1 (amended): on every successful `execute_with_host`, whenever the
plan's `rows_affected_mode` is `RowsLength`, the returned `rows_affected`
equals the length of the returned rows sequence, and is therefore
nonnegative (in `HostReported` mode it is the host-reported value, which the
counterexample shows may be negative). -/
theorem rows_affected_matches_rows_length (O : Oracles) (h : Host σ) (s : σ)
    (req : ExecuteRequest) (result : ExecuteResult)
    (hok : ((execute_with_host O h req) s).2.2 = .ok result)
    (hmode : (plan_execute O req.sql).rows_affected_mode = RUST_ROWS_AFFECTED_ROWS_LENGTH) :
    result.rows_affected = result.rows.length ∧ 0 ≤ result.rows_affected := by
  obtain ⟨response, hrows, _, _, haff⟩ := execute_with_host_ok_shape O h req s result hok
  rw [hmode] at haff
  simp only [beq_self_eq_true, if_true] at haff
  refine ⟨?_, ?_⟩
  · rw [haff, hrows]
  · rw [haff]
    exact Int.ofNat_nonneg _

theorem c1_witness :
    (ExecuteResult.mk RUST_KIND_READ_REWRITE [Json.num 1] 1 none []).rows_affected
        = ((ExecuteResult.mk RUST_KIND_READ_REWRITE [Json.num 1] 1 none []).rows.length : Int)
    ∧ 0 ≤ (ExecuteResult.mk RUST_KIND_READ_REWRITE [Json.num 1] 1 none []).rows_affected :=
  rows_affected_matches_rows_length readOracles plainReadHost () readRequest _ (by rfl) (by rfl)

end LixEngine

namespace LixEngine

theorem except_bind_ok (a : α) (f : α → Except EngineError β) :
    (Except.ok a >>= f) = f a := rfl

mutual

/-- A query with no visited vtable reference is returned by the read
rewriter unchanged, with the changed flag false. -/
theorem rewrite_query_id (O : Oracles) :
    ∀ q : Query, queryHasVtableRef q = false →
      rewrite_query_for_read_rewrite O q = .ok (q, false)
  | Query.mk none body, h => by
    have hb : setExprHasVtableRef body = false := by
      simpa [queryHasVtableRef] using h
    simp [rewrite_query_for_read_rewrite, rewrite_set_expr_id O body hb, except_bind_ok]
  | Query.mk (some ctes) body, h => by
    rw [queryHasVtableRef] at h
    rcases Bool.or_eq_false_iff.mp h with ⟨hc, hb⟩
    simp [rewrite_query_for_read_rewrite, rewrite_cte_list_id O ctes hc,
      rewrite_set_expr_id O body hb, except_bind_ok]

/-- CTE lists: unchanged when no visited vtable reference. -/
theorem rewrite_cte_list_id (O : Oracles) :
    ∀ l : List Cte, cteListHasVtableRef l = false →
      rewrite_cte_list O l = .ok (l, false)
  | [], _ => rfl
  | Cte.mk q :: rest, h => by
    rw [cteListHasVtableRef] at h
    rcases Bool.or_eq_false_iff.mp h with ⟨h1, h2⟩
    simp [rewrite_cte_list, rewrite_query_id O q h1, rewrite_cte_list_id O rest h2,
      except_bind_ok]

/-- Set expressions: unchanged when no visited vtable reference. -/
theorem rewrite_set_expr_id (O : Oracles) :
    ∀ e : SetExpr, setExprHasVtableRef e = false →
      rewrite_set_expr_for_read_rewrite O e = .ok (e, false)
  | SetExpr.Select sel, h => by
    rw [setExprHasVtableRef] at h
    simp [rewrite_set_expr_for_read_rewrite, rewrite_select_id O sel h, except_bind_ok]
  | SetExpr.Query q, h => by
    rw [setExprHasVtableRef] at h
    simp [rewrite_set_expr_for_read_rewrite, rewrite_query_id O q h, except_bind_ok]
  | SetExpr.SetOperation l r, h => by
    rw [setExprHasVtableRef] at h
    rcases Bool.or_eq_false_iff.mp h with ⟨h1, h2⟩
    simp [rewrite_set_expr_for_read_rewrite, rewrite_set_expr_id O l h1,
      rewrite_set_expr_id O r h2, except_bind_ok]
  | SetExpr.Values rows, _ => rfl
  | SetExpr.OtherSetExpr, _ => rfl

/-- SELECT bodies: unchanged when no visited vtable reference. -/
theorem rewrite_select_id (O : Oracles) :
    ∀ sel : SelectBody, selectHasVtableRef sel = false →
      rewrite_select_for_read_rewrite O sel = .ok (sel, false)
  | SelectBody.mk from_list, h => by
    rw [selectHasVtableRef] at h
    simp [rewrite_select_for_read_rewrite, rewrite_twj_list_id O from_list h, except_bind_ok]

/-- FROM lists: unchanged when no visited vtable reference. -/
theorem rewrite_twj_list_id (O : Oracles) :
    ∀ l : List TableWithJoins, twjListHasVtableRef l = false →
      rewrite_twj_list O l = .ok (l, false)
  | [], _ => rfl
  | twj :: rest, h => by
    rw [twjListHasVtableRef] at h
    rcases Bool.or_eq_false_iff.mp h with ⟨h1, h2⟩
    simp [rewrite_twj_list, rewrite_twj_id O twj h1, rewrite_twj_list_id O rest h2,
      except_bind_ok]

/-- Tables with joins: unchanged when no visited vtable reference. -/
theorem rewrite_twj_id (O : Oracles) :
    ∀ twj : TableWithJoins, twjHasVtableRef twj = false →
      rewrite_table_with_joins_for_read_rewrite O twj = .ok (twj, false)
  | TableWithJoins.mk relation joins, h => by
    rw [twjHasVtableRef] at h
    rcases Bool.or_eq_false_iff.mp h with ⟨h1, h2⟩
    simp [rewrite_table_with_joins_for_read_rewrite, rewrite_tf_id O relation h1,
      rewrite_join_list_id O joins h2, except_bind_ok]

/-- Join lists: unchanged when no visited vtable reference. -/
theorem rewrite_join_list_id (O : Oracles) :
    ∀ l : List Join, joinListHasVtableRef l = false →
      rewrite_join_list O l = .ok (l, false)
  | [], _ => rfl
  | Join.mk r :: rest, h => by
    rw [joinListHasVtableRef] at h
    rcases Bool.or_eq_false_iff.mp h with ⟨h1, h2⟩
    simp [rewrite_join_list, rewrite_tf_id O r h1, rewrite_join_list_id O rest h2,
      except_bind_ok]

/-- Table factors: unchanged when no visited vtable reference. -/
theorem rewrite_tf_id (O : Oracles) :
    ∀ tf : TableFactor, tableFactorHasVtableRef tf = false →
      rewrite_table_factor_for_read_rewrite O tf = .ok (tf, false)
  | TableFactor.Table name aliasOpt args, h => by
    rw [tableFactorHasVtableRef] at h
    rcases Bool.and_eq_false_iff.mp h with h1 | h1
    · have ha : args.isSome = true := by
        cases hr : args.isSome
        · rw [hr] at h1; exact absurd h1 (by simp)
        · rfl
      simp [rewrite_table_factor_for_read_rewrite, ha]
    · simp [rewrite_table_factor_for_read_rewrite, h1]
  | TableFactor.Derived lateral q aliasOpt, h => by
    rw [tableFactorHasVtableRef] at h
    simp [rewrite_table_factor_for_read_rewrite, rewrite_query_id O q h, except_bind_ok]
  | TableFactor.NestedJoin twj, h => by
    rw [tableFactorHasVtableRef] at h
    simp [rewrite_table_factor_for_read_rewrite, rewrite_twj_id O twj h, except_bind_ok]
  | TableFactor.Pivot t, h => by
    rw [tableFactorHasVtableRef] at h
    simp [rewrite_table_factor_for_read_rewrite, rewrite_tf_id O t h, except_bind_ok]
  | TableFactor.Unpivot t, h => by
    rw [tableFactorHasVtableRef] at h
    simp [rewrite_table_factor_for_read_rewrite, rewrite_tf_id O t h, except_bind_ok]
  | TableFactor.MatchRecognize t, h => by
    rw [tableFactorHasVtableRef] at h
    simp [rewrite_table_factor_for_read_rewrite, rewrite_tf_id O t h, except_bind_ok]
  | TableFactor.OtherFactor, _ => rfl

end

end LixEngine

namespace LixEngine

/-- Statements with no visited vtable reference are returned by the read
rewriter unchanged. -/
theorem rewrite_statement_read_id (O : Oracles) (stmt : Statement)
    (h : statementHasVtableRef stmt = false) :
    rewrite_statement_for_read_rewrite O stmt = .ok (stmt, false) := by
  cases stmt with
  | Query q =>
    rw [statementHasVtableRef] at h
    simp [rewrite_statement_for_read_rewrite, rewrite_query_id O q h]
  | Insert i => rfl
  | Update a b c d e => rfl
  | Delete d => rfl
  | OtherStatement => rfl

/-- When every statement's individual rewrite reports no change, the
statement loop reports no change. -/
theorem rewrite_statements_loop_unchanged (O : Oracles) (statement_kind : String)
    (stmts : List Statement)
    (h : ∀ stmt ∈ stmts, ∃ str, rewrite_one_statement O statement_kind stmt = .ok (str, false)) :
    ∃ strs, rewrite_statements_loop O statement_kind stmts = .ok (strs, false) := by
  induction stmts with
  | nil => exact ⟨[], rfl⟩
  | cons stmt rest ih =>
    obtain ⟨str, hstr⟩ := h stmt (by simp)
    obtain ⟨strs, hstrs⟩ := ih (fun t ht => h t (by simp [ht]))
    exact ⟨str :: strs, by simp [rewrite_statements_loop, hstr, hstrs]⟩

/-- C8: `rewrite_sql_for_execution` returns its input byte-for-byte whenever
no rewrite applies: for every SQL string under `Passthrough`; for every
successfully parsed input in which no statement is actually rewritten; and
in particular for any read SQL with no base-table reference to
`lix_internal_state_vtable` in a position the rewriter visits. -/
theorem rewrite_sql_identity_when_no_rewrite (O : Oracles) (sql statement_kind : String) :
    (statement_kind = RUST_KIND_PASSTHROUGH →
      rewrite_sql_for_execution O sql statement_kind = .ok sql)
    ∧ (∀ statements, O.parseSql sql = .ok statements → statements ≠ [] →
        (∀ stmt ∈ statements,
          ∃ str, rewrite_one_statement O statement_kind stmt = .ok (str, false)) →
        rewrite_sql_for_execution O sql statement_kind = .ok sql)
    ∧ (statement_kind = RUST_KIND_READ_REWRITE →
        ∀ statements, O.parseSql sql = .ok statements → statements ≠ [] →
        (∀ stmt ∈ statements, statementHasVtableRef stmt = false) →
        rewrite_sql_for_execution O sql statement_kind = .ok sql) := by
  have part1 : statement_kind = RUST_KIND_PASSTHROUGH →
      rewrite_sql_for_execution O sql statement_kind = .ok sql := by
    intro hk
    simp [rewrite_sql_for_execution, hk]
  have part2 : ∀ statements, O.parseSql sql = .ok statements → statements ≠ [] →
      (∀ stmt ∈ statements,
        ∃ str, rewrite_one_statement O statement_kind stmt = .ok (str, false)) →
      rewrite_sql_for_execution O sql statement_kind = .ok sql := by
    intro statements hp hne hall
    by_cases hk : statement_kind = RUST_KIND_PASSTHROUGH
    · exact part1 hk
    · obtain ⟨strs, hloop⟩ := rewrite_statements_loop_unchanged O statement_kind statements hall
      unfold rewrite_sql_for_execution
      cases statements with
      | nil => exact absurd rfl hne
      | cons stmt rest =>
        simp [hk, hp, hloop]
  refine ⟨part1, part2, ?_⟩
  intro hk statements hp hne hall
  refine part2 statements hp hne ?_
  intro stmt hstmt
  refine ⟨O.stmtStr stmt, ?_⟩
  unfold rewrite_one_statement
  simp [hk, rewrite_statement_read_id O stmt (hall stmt hstmt)]

end LixEngine

namespace LixEngine

/-! ## Claim C7: the stable error-code taxonomy -/

theorem rv_code_mem (msg : String) :
    (EngineError.rewriteValidation msg).code ∈ STABLE_ENGINE_CODES := by
  simp [EngineError.rewriteValidation, STABLE_ENGINE_CODES]

theorem pm_code_mem (msg : String) :
    (EngineError.protocolMismatch msg).code ∈ STABLE_ENGINE_CODES := by
  simp [EngineError.protocolMismatch, STABLE_ENGINE_CODES]

/-- `map_host_error` preserves errors with stable codes and rewraps all
others under the default code. -/
theorem map_host_error_cases (error : EngineError) (default_code : String) :
    (error.code ∈ STABLE_ENGINE_CODES → map_host_error error default_code = error)
    ∧ (error.code ∉ STABLE_ENGINE_CODES →
        map_host_error error default_code = ⟨default_code, error.message⟩) := by
  constructor
  · intro hmem
    simp only [STABLE_ENGINE_CODES, List.mem_cons, List.not_mem_nil, or_false] at hmem
    unfold map_host_error
    rcases hmem with h | h | h | h | h | h | h <;> simp [h]
  · intro hmem
    simp only [STABLE_ENGINE_CODES, List.mem_cons, List.not_mem_nil, or_false] at hmem
    push_neg at hmem
    unfold map_host_error
    simp [hmem.1, hmem.2.1, hmem.2.2.1, hmem.2.2.2.1, hmem.2.2.2.2.1,
      hmem.2.2.2.2.2.1, hmem.2.2.2.2.2.2]

/-- `map_host_error` lands in the stable set whenever the default code is in
it. -/
theorem map_host_error_stable (error : EngineError) (default_code : String)
    (hd : default_code ∈ STABLE_ENGINE_CODES) :
    (map_host_error error default_code).code ∈ STABLE_ENGINE_CODES := by
  by_cases hmem : error.code ∈ STABLE_ENGINE_CODES
  · rw [(map_host_error_cases error default_code).1 hmem]
    exact hmem
  · rw [(map_host_error_cases error default_code).2 hmem]
    exact hd

theorem sqlite_execution_mem : LIX_RUST_SQLITE_EXECUTION ∈ STABLE_ENGINE_CODES := by
  simp [STABLE_ENGINE_CODES]

theorem detect_changes_mem : LIX_RUST_DETECT_CHANGES ∈ STABLE_ENGINE_CODES := by
  simp [STABLE_ENGINE_CODES]

theorem rewrite_validation_mem : LIX_RUST_REWRITE_VALIDATION ∈ STABLE_ENGINE_CODES := by
  simp [STABLE_ENGINE_CODES]

end LixEngine

namespace LixEngine

theorem convert_sql_value_to_json_stable (O : Oracles) (v : SqlValue) (params : List Json)
    (cursor : Nat) (b : Bool) :
    StableE (convert_sql_value_to_json O v params cursor b) := by
  intro e he
  cases v <;>
    simp only [convert_sql_value_to_json] at he <;>
    (repeat' split at he) <;>
    first
      | exact Except.noConfusion he
      | (injection he with h; exact h ▸ rv_code_mem _)

theorem evaluate_sql_expr_to_json_stable (O : Oracles) :
    ∀ (expr : Expr) (params : List Json) (cursor : Nat) (b : Bool),
      StableE (evaluate_sql_expr_to_json O expr params cursor b)
  | Expr.Value v, params, cursor, b => by
    intro e he
    simp only [evaluate_sql_expr_to_json] at he
    exact convert_sql_value_to_json_stable O v params cursor b e he
  | Expr.Function name args, params, cursor, b => by
    intro e he
    unfold evaluate_sql_expr_to_json at he
    dsimp only at he
    (repeat' split at he) <;>
    first
      | exact Except.noConfusion he
      | (injection he with h; exact h ▸ rv_code_mem _)
      | exact evaluate_sql_expr_to_json_stable O _ params cursor true e he
  | Expr.OtherExpr r, params, cursor, b => by
    intro e he
    simp only [evaluate_sql_expr_to_json] at he
    injection he with h
    exact h ▸ rv_code_mem _

end LixEngine

namespace LixEngine

theorem except_bind_eq (m : Except EngineError α) (f : α → Except EngineError β) :
    (m >>= f) = match m with
      | .ok a => f a
      | .error e => .error e := by
  cases m <;> rfl

theorem extractRowsLoop_stable (O : Oracles) (params : List Json)
    (cols : List String) (i1 i2 i3 : Nat) :
    ∀ (rows : List (List Expr)) (cursor : Nat),
      StableE (extractRowsLoop O params cols i1 i2 i3 rows cursor)
  | [], cursor => by
    intro e he
    exact Except.noConfusion he
  | row :: rest, cursor => by
    intro e he
    unfold extractRowsLoop at he
    try dsimp only at he
    (repeat' split at he) <;>
    first
      | exact Except.noConfusion he
      | (injection he with h; exact h ▸ rv_code_mem _)
      | (injection he with h
         exact h ▸ evaluate_sql_expr_to_json_stable O _ params _ _ _ (by assumption))
      | (injection he with h
         exact h ▸ extractRowsLoop_stable O params cols i1 i2 i3 rest _ _ (by assumption))

theorem extract_insert_validation_rows_stable (O : Oracles) (stmt : Statement)
    (params : List Json) (cursor : Nat) :
    StableE (extract_insert_validation_rows O stmt params cursor) := by
  intro e he
  unfold extract_insert_validation_rows at he
  try dsimp only at he
  (repeat' split at he) <;>
  first
    | exact Except.noConfusion he
    | (injection he with h; exact h ▸ rv_code_mem _)
    | exact extractRowsLoop_stable O params _ _ _ _ _ _ e he

theorem validate_validation_mutations_stable (O : Oracles) (sql : String) :
    StableE (validate_validation_mutations O sql) := by
  intro e he
  unfold validate_validation_mutations at he
  (repeat' split at he) <;>
  first
    | exact Except.noConfusion he
    | (injection he with h; exact h ▸ rv_code_mem _)

theorem renderInsertRows_stable (O : Oracles) (n : Nat) (b : Bool) :
    ∀ rows : List (List Expr), StableE (renderInsertRows O n b rows)
  | [] => by intro e he; exact Except.noConfusion he
  | row :: rest => by
    intro e he
    unfold renderInsertRows at he
    try dsimp only at he
    (repeat' split at he) <;>
    first
      | exact Except.noConfusion he
      | (injection he with h; exact h ▸ pm_code_mem _)
      | (injection he with h
         exact h ▸ renderInsertRows_stable O n b rest _ (by assumption))

theorem rewrite_insert_for_write_rewrite_stable (O : Oracles) (i : Insert) :
    StableE (rewrite_insert_for_write_rewrite O i) := by
  intro e he
  unfold rewrite_insert_for_write_rewrite at he
  dsimp only at he
  (repeat' split at he) <;>
  first
    | exact Except.noConfusion he
    | (injection he with h
       exact h ▸ renderInsertRows_stable O _ _ _ _ (by assumption))

theorem rewrite_statement_for_write_rewrite_stable (O : Oracles) (stmt : Statement) :
    StableE (rewrite_statement_for_write_rewrite O stmt) := by
  intro e he
  cases stmt <;>
    (unfold rewrite_statement_for_write_rewrite at he
     try dsimp only at he
     (repeat' split at he)) <;>
  first
    | exact Except.noConfusion he
    | (injection he with h
       exact h ▸ rewrite_insert_for_write_rewrite_stable O _ _ (by assumption))
    | simp_all

theorem build_state_vtable_equivalent_subquery_stable (O : Oracles) :
    StableE (build_state_vtable_equivalent_subquery O) := by
  intro e he
  unfold build_state_vtable_equivalent_subquery at he
  (repeat' split at he) <;>
  first
    | exact Except.noConfusion he
    | (injection he with h; exact h ▸ pm_code_mem _)

end LixEngine

namespace LixEngine

theorem except_pure_eq (a : α) : (pure a : Except EngineError α) = .ok a := rfl

mutual

theorem rewrite_query_stable (O : Oracles) :
    ∀ q : Query, StableE (rewrite_query_for_read_rewrite O q)
  | Query.mk w body => by
    intro e he
    unfold rewrite_query_for_read_rewrite at he
    simp only [except_bind_eq, except_pure_eq] at he
    (repeat' split at he) <;>
    first
      | exact Except.noConfusion he
      | (injection he with h; exact h ▸ rewrite_cte_list_stable O _ _ (by assumption))
      | (injection he with h; exact h ▸ rewrite_set_expr_stable O _ _ (by assumption))
      | simp_all

theorem rewrite_cte_list_stable (O : Oracles) :
    ∀ l : List Cte, StableE (rewrite_cte_list O l)
  | [] => by intro e he; exact Except.noConfusion he
  | Cte.mk q :: rest => by
    intro e he
    unfold rewrite_cte_list at he
    simp only [except_bind_eq, except_pure_eq] at he
    (repeat' split at he) <;>
    first
      | exact Except.noConfusion he
      | (injection he with h; exact h ▸ rewrite_query_stable O _ _ (by assumption))
      | (injection he with h; exact h ▸ rewrite_cte_list_stable O _ _ (by assumption))
      | simp_all

theorem rewrite_set_expr_stable (O : Oracles) :
    ∀ x : SetExpr, StableE (rewrite_set_expr_for_read_rewrite O x)
  | SetExpr.Select sel => by
    intro e he
    unfold rewrite_set_expr_for_read_rewrite at he
    simp only [except_bind_eq, except_pure_eq] at he
    (repeat' split at he) <;>
    first
      | exact Except.noConfusion he
      | (injection he with h; exact h ▸ rewrite_select_stable O _ _ (by assumption))
      | simp_all
  | SetExpr.Query q => by
    intro e he
    unfold rewrite_set_expr_for_read_rewrite at he
    simp only [except_bind_eq, except_pure_eq] at he
    (repeat' split at he) <;>
    first
      | exact Except.noConfusion he
      | (injection he with h; exact h ▸ rewrite_query_stable O _ _ (by assumption))
      | simp_all
  | SetExpr.SetOperation l r => by
    intro e he
    unfold rewrite_set_expr_for_read_rewrite at he
    simp only [except_bind_eq, except_pure_eq] at he
    (repeat' split at he) <;>
    first
      | exact Except.noConfusion he
      | (injection he with h; exact h ▸ rewrite_set_expr_stable O l _ (by assumption))
      | (injection he with h; exact h ▸ rewrite_set_expr_stable O r _ (by assumption))
      | simp_all
  | SetExpr.Values rows => by intro e he; exact Except.noConfusion he
  | SetExpr.OtherSetExpr => by intro e he; exact Except.noConfusion he

theorem rewrite_select_stable (O : Oracles) :
    ∀ sel : SelectBody, StableE (rewrite_select_for_read_rewrite O sel)
  | SelectBody.mk from_list => by
    intro e he
    unfold rewrite_select_for_read_rewrite at he
    simp only [except_bind_eq, except_pure_eq] at he
    (repeat' split at he) <;>
    first
      | exact Except.noConfusion he
      | (injection he with h; exact h ▸ rewrite_twj_list_stable O _ _ (by assumption))
      | simp_all

theorem rewrite_twj_list_stable (O : Oracles) :
    ∀ l : List TableWithJoins, StableE (rewrite_twj_list O l)
  | [] => by intro e he; exact Except.noConfusion he
  | twj :: rest => by
    intro e he
    unfold rewrite_twj_list at he
    simp only [except_bind_eq, except_pure_eq] at he
    (repeat' split at he) <;>
    first
      | exact Except.noConfusion he
      | (injection he with h; exact h ▸ rewrite_twj_stable O _ _ (by assumption))
      | (injection he with h; exact h ▸ rewrite_twj_list_stable O _ _ (by assumption))
      | simp_all

theorem rewrite_twj_stable (O : Oracles) :
    ∀ twj : TableWithJoins, StableE (rewrite_table_with_joins_for_read_rewrite O twj)
  | TableWithJoins.mk relation joins => by
    intro e he
    unfold rewrite_table_with_joins_for_read_rewrite at he
    simp only [except_bind_eq, except_pure_eq] at he
    (repeat' split at he) <;>
    first
      | exact Except.noConfusion he
      | (injection he with h; exact h ▸ rewrite_tf_stable O _ _ (by assumption))
      | (injection he with h; exact h ▸ rewrite_join_list_stable O _ _ (by assumption))
      | simp_all

theorem rewrite_join_list_stable (O : Oracles) :
    ∀ l : List Join, StableE (rewrite_join_list O l)
  | [] => by intro e he; exact Except.noConfusion he
  | Join.mk r :: rest => by
    intro e he
    unfold rewrite_join_list at he
    simp only [except_bind_eq, except_pure_eq] at he
    (repeat' split at he) <;>
    first
      | exact Except.noConfusion he
      | (injection he with h; exact h ▸ rewrite_tf_stable O _ _ (by assumption))
      | (injection he with h; exact h ▸ rewrite_join_list_stable O _ _ (by assumption))
      | simp_all

theorem rewrite_tf_stable (O : Oracles) :
    ∀ tf : TableFactor, StableE (rewrite_table_factor_for_read_rewrite O tf)
  | TableFactor.Table name aliasOpt args => by
    intro e he
    unfold rewrite_table_factor_for_read_rewrite at he
    simp only [except_bind_eq, except_pure_eq] at he
    (repeat' split at he) <;>
    first
      | exact Except.noConfusion he
      | (injection he with h
         exact h ▸ build_state_vtable_equivalent_subquery_stable O _ (by assumption))
      | simp_all
  | TableFactor.Derived lateral q aliasOpt => by
    intro e he
    unfold rewrite_table_factor_for_read_rewrite at he
    simp only [except_bind_eq, except_pure_eq] at he
    (repeat' split at he) <;>
    first
      | exact Except.noConfusion he
      | (injection he with h; exact h ▸ rewrite_query_stable O _ _ (by assumption))
      | simp_all
  | TableFactor.NestedJoin twj => by
    intro e he
    unfold rewrite_table_factor_for_read_rewrite at he
    simp only [except_bind_eq, except_pure_eq] at he
    (repeat' split at he) <;>
    first
      | exact Except.noConfusion he
      | (injection he with h; exact h ▸ rewrite_twj_stable O _ _ (by assumption))
      | simp_all
  | TableFactor.Pivot t => by
    intro e he
    unfold rewrite_table_factor_for_read_rewrite at he
    simp only [except_bind_eq, except_pure_eq] at he
    (repeat' split at he) <;>
    first
      | exact Except.noConfusion he
      | (injection he with h; exact h ▸ rewrite_tf_stable O _ _ (by assumption))
      | simp_all
  | TableFactor.Unpivot t => by
    intro e he
    unfold rewrite_table_factor_for_read_rewrite at he
    simp only [except_bind_eq, except_pure_eq] at he
    (repeat' split at he) <;>
    first
      | exact Except.noConfusion he
      | (injection he with h; exact h ▸ rewrite_tf_stable O _ _ (by assumption))
      | simp_all
  | TableFactor.MatchRecognize t => by
    intro e he
    unfold rewrite_table_factor_for_read_rewrite at he
    simp only [except_bind_eq, except_pure_eq] at he
    (repeat' split at he) <;>
    first
      | exact Except.noConfusion he
      | (injection he with h; exact h ▸ rewrite_tf_stable O _ _ (by assumption))
      | simp_all
  | TableFactor.OtherFactor => by intro e he; exact Except.noConfusion he

end

theorem rewrite_statement_for_read_rewrite_stable (O : Oracles) (stmt : Statement) :
    StableE (rewrite_statement_for_read_rewrite O stmt) := by
  intro e he
  cases stmt <;>
    (unfold rewrite_statement_for_read_rewrite at he
     (repeat' split at he)) <;>
  first
    | exact Except.noConfusion he
    | (injection he with h; exact h ▸ rewrite_query_stable O _ _ (by assumption))
    | simp_all

theorem rewrite_one_statement_stable (O : Oracles) (kind : String) (stmt : Statement) :
    StableE (rewrite_one_statement O kind stmt) := by
  intro e he
  unfold rewrite_one_statement at he
  (repeat' split at he) <;>
  first
    | exact Except.noConfusion he
    | (injection he with h
       exact h ▸ rewrite_statement_for_read_rewrite_stable O _ _ (by assumption))
    | exact rewrite_statement_for_write_rewrite_stable O _ _ he
    | simp_all

theorem rewrite_statements_loop_stable (O : Oracles) (kind : String) :
    ∀ stmts : List Statement, StableE (rewrite_statements_loop O kind stmts)
  | [] => by intro e he; exact Except.noConfusion he
  | stmt :: rest => by
    intro e he
    unfold rewrite_statements_loop at he
    (repeat' split at he) <;>
    first
      | exact Except.noConfusion he
      | (injection he with h; exact h ▸ rewrite_one_statement_stable O kind _ _ (by assumption))
      | (injection he with h; exact h ▸ rewrite_statements_loop_stable O kind rest _ (by assumption))
      | simp_all

theorem rewrite_sql_for_execution_stable (O : Oracles) (sql kind : String) :
    StableE (rewrite_sql_for_execution O sql kind) := by
  intro e he
  unfold rewrite_sql_for_execution at he
  (repeat' split at he) <;>
  first
    | exact Except.noConfusion he
    | (injection he with h; exact h ▸ pm_code_mem _)
    | (injection he with h; exact h ▸ rewrite_statements_loop_stable O kind _ _ (by assumption))
    | simp_all

end LixEngine

namespace LixEngine

theorem validateOverrideEntries_stable (O : Oracles) :
    ∀ l : List (String × Json), StableE (validateOverrideEntries O l)
  | [] => by intro e he; exact Except.noConfusion he
  | (key, value) :: rest => by
    intro e he
    unfold validateOverrideEntries at he
    (repeat' split at he) <;>
    first
      | exact Except.noConfusion he
      | (injection he with h; exact h ▸ rv_code_mem _)
      | exact validateOverrideEntries_stable O rest e he
      | simp_all

theorem celDefaultCheck_stable (O : Oracles) (record : List (String × Json)) :
    StableE (celDefaultCheck O record) := by
  intro e he
  unfold celDefaultCheck at he
  (repeat' split at he) <;>
  first
    | exact Except.noConfusion he
    | (injection he with h; exact h ▸ rv_code_mem _)

theorem celOverrideCheck_stable (O : Oracles) (record : List (String × Json)) :
    StableE (celOverrideCheck O record) := by
  intro e he
  unfold celOverrideCheck at he
  (repeat' split at he) <;>
  first
    | exact Except.noConfusion he
    | exact validateOverrideEntries_stable O _ e he

mutual

theorem validate_cel_stable (O : Oracles) :
    ∀ j : Json, StableE (validate_cel_expressions_in_schema O j)
  | Json.obj record => by
    intro e he
    unfold validate_cel_expressions_in_schema at he
    simp only [except_bind_eq, except_pure_eq] at he
    (repeat' split at he) <;>
    first
      | exact Except.noConfusion he
      | exact validateObjValues_stable O record e he
      | (exact he ▸ celDefaultCheck_stable O record _ (by assumption))
      | (exact he ▸ celOverrideCheck_stable O record _ (by assumption))
      | (injection he with h; exact h ▸ celDefaultCheck_stable O record _ (by assumption))
      | (injection he with h; exact h ▸ celOverrideCheck_stable O record _ (by assumption))
      | simp_all
  | Json.arr values => by
    intro e he
    unfold validate_cel_expressions_in_schema at he
    exact validateArrValues_stable O values e he
  | Json.null => by intro e he; exact Except.noConfusion he
  | Json.bool b => by intro e he; exact Except.noConfusion he
  | Json.num n => by intro e he; exact Except.noConfusion he
  | Json.numFloat f => by intro e he; exact Except.noConfusion he
  | Json.str t => by intro e he; exact Except.noConfusion he

theorem validateObjValues_stable (O : Oracles) :
    ∀ l : List (String × Json), StableE (validateObjValues O l)
  | [] => by intro e he; exact Except.noConfusion he
  | (k, value) :: rest => by
    intro e he
    unfold validateObjValues at he
    simp only [except_bind_eq, except_pure_eq] at he
    (repeat' split at he) <;>
    first
      | exact Except.noConfusion he
      | (injection he with h; exact h ▸ validate_cel_stable O value _ (by assumption))
      | exact validateObjValues_stable O rest e he
      | simp_all

theorem validateArrValues_stable (O : Oracles) :
    ∀ l : List Json, StableE (validateArrValues O l)
  | [] => by intro e he; exact Except.noConfusion he
  | value :: rest => by
    intro e he
    unfold validateArrValues at he
    simp only [except_bind_eq, except_pure_eq] at he
    (repeat' split at he) <;>
    first
      | exact Except.noConfusion he
      | (injection he with h; exact h ▸ validate_cel_stable O value _ (by assumption))
      | exact validateArrValues_stable O rest e he
      | simp_all

end

theorem stable_liftE {r : Except EngineError α} (hr : StableE r) :
    StableErrors (HostM.liftE r : HostM σ α) := by
  intro s e he
  rw [HostM.liftE_apply] at he
  exact hr e he

theorem stable_purePure (a : α) : StableErrors (Pure.pure a : HostM σ α) := by
  intro s e he
  exact Except.noConfusion he

theorem stable_bind {m : HostM σ α} {f : α → HostM σ β}
    (hm : StableErrors m) (hf : ∀ a, StableErrors (f a)) :
    StableErrors (HostM.bind m f) := by
  intro s e he
  rw [HostM.bind_apply] at he
  rcases hms : m s with ⟨s2, t1, r⟩
  rw [hms] at he
  cases r with
  | ok a => exact hf a s2 e (by simpa using he)
  | error e0 =>
    have h0 : e0 = e := by simpa using he
    exact h0 ▸ hm s e0 (by rw [hms])

theorem stable_mapErr (m : HostM σ α) (f : EngineError → EngineError)
    (hf : ∀ e, (f e).code ∈ STABLE_ENGINE_CODES) :
    StableErrors (HostM.mapErr m f) := by
  intro s e he
  rw [HostM.mapErr_apply] at he
  rcases hms : m s with ⟨s2, t1, r⟩
  rw [hms] at he
  cases r with
  | ok a => simp at he
  | error e0 =>
    have h0 : f e0 = e := by simpa using he
    exact h0 ▸ hf e0

theorem stable_throw {e0 : EngineError} (h : e0.code ∈ STABLE_ENGINE_CODES) :
    StableErrors (HostM.throw e0 : HostM σ α) := by
  intro s e he
  rw [HostM.throw_apply] at he
  have h0 : e0 = e := by simpa using he
  exact h0 ▸ h

theorem fetch_stored_schema_stable (O : Oracles) (h : Host σ) (key ver : String) :
    StableErrors (fetch_stored_schema O h key ver) := by
  unfold fetch_stored_schema
  rw [HostM.bind_def]
  apply stable_bind
  · exact stable_mapErr _ _ (fun e => map_host_error_stable e _ rewrite_validation_mem)
  · intro response
    intro s e he
    rcases hrow : response.rows.head? with _ | first_row <;> simp only [hrow] at he
    · exact (Except.error.inj he) ▸ rv_code_mem _
    · cases first_row
      case obj record =>
        rcases hv : Json.objGet record "value" with _ | v <;> simp only [hv] at he
        · exact (Except.error.inj he) ▸ rv_code_mem _
        · cases v
          case str text =>
            rcases hj : O.jsonParse text with e2 | j <;> simp only [hj] at he
            · exact (Except.error.inj he) ▸ rv_code_mem _
            · exact Except.noConfusion he
          all_goals exact Except.noConfusion he
      case str text =>
        rcases hj : O.jsonParse text with e2 | j <;> simp only [hj] at he
        · exact (Except.error.inj he) ▸ rv_code_mem _
        · exact Except.noConfusion he
      all_goals exact (Except.error.inj he) ▸ rv_code_mem _

theorem validate_single_mutation_row_stable (O : Oracles) (h : Host σ)
    (row : MutationValidationRow) :
    StableErrors (validate_single_mutation_row O h row) := by
  unfold validate_single_mutation_row
  rw [HostM.bind_def]
  apply stable_bind (fetch_stored_schema_stable O h _ _)
  intro schema
  rw [HostM.bind_def]
  apply stable_bind (stable_liftE (validate_cel_stable O schema))
  intro _
  intro s e he
  rcases hc : O.schemaCompileErr schema with _ | err <;> simp only [hc] at he
  · rcases hv : O.schemaValidateErr schema row.snapshot_content with _ | d <;>
      simp only [hv] at he
    · exact Except.noConfusion he
    · rw [HostM.throw_apply] at he
      exact (Except.error.inj he) ▸ rv_code_mem _
  · rw [HostM.throw_apply] at he
    exact (Except.error.inj he) ▸ rv_code_mem _

theorem validateRowsLoop_stable (O : Oracles) (h : Host σ) :
    ∀ rows : List MutationValidationRow, StableErrors (validateRowsLoop O h rows)
  | [] => stable_purePure ()
  | row :: rest => by
    unfold validateRowsLoop
    rw [HostM.bind_def]
    exact stable_bind (validate_single_mutation_row_stable O h row)
      (fun _ => validateRowsLoop_stable O h rest)

theorem validateStatementsLoop_stable (O : Oracles) (h : Host σ) (params : List Json) :
    ∀ (stmts : List Statement) (cursor : Nat),
      StableErrors (validateStatementsLoop O h params stmts cursor)
  | [], _ => stable_purePure ()
  | stmt :: rest, cursor => by
    unfold validateStatementsLoop
    rw [HostM.bind_def]
    apply stable_bind
      (stable_liftE (extract_insert_validation_rows_stable O stmt params cursor))
    intro a
    rw [HostM.bind_def]
    exact stable_bind (validateRowsLoop_stable O h a.1)
      (fun _ => validateStatementsLoop_stable O h params rest a.2)

theorem validate_state_mutation_rows_stable (O : Oracles) (h : Host σ) (sql : String)
    (params : List Json) (kind : String) :
    StableErrors (validate_state_mutation_rows O h sql params kind) := by
  unfold validate_state_mutation_rows
  intro s e he
  dsimp only at he
  split at he
  · exact Except.noConfusion he
  · rcases hp : O.parseSql sql with e2 | statements <;> simp only [hp] at he
    · exact (Except.error.inj he) ▸ rv_code_mem _
    · exact validateStatementsLoop_stable O h params statements 0 s e he

theorem execute_plugin_change_detection_stable (h : Host σ) (request_id : String) :
    ∀ requests : List PluginChangeRequest,
      StableErrors (execute_plugin_change_detection h request_id requests)
  | [] => stable_purePure []
  | request :: rest => by
    unfold execute_plugin_change_detection
    rw [HostM.bind_def]
    apply stable_bind (stable_mapErr _ _ (fun e => map_host_error_stable e _ detect_changes_mem))
    intro response
    rw [HostM.bind_def]
    exact stable_bind (execute_plugin_change_detection_stable h request_id rest)
      (fun a => stable_purePure _)

theorem validationPhase_stable (O : Oracles) (h : Host σ) (req : ExecuteRequest) :
    StableErrors (validationPhase O h req) := by
  unfold validationPhase
  intro s e he
  dsimp only at he
  split at he
  · exact stable_bind (stable_liftE (validate_validation_mutations_stable O req.sql))
      (fun _ => validate_state_mutation_rows_stable O h req.sql req.params _) s e he
  · exact stable_bind (stable_purePure _)
      (fun _ => validate_state_mutation_rows_stable O h req.sql req.params _) s e he

/-- Every error `execute_with_host` can return carries one of the seven
stable engine codes. -/
theorem execute_with_host_stable (O : Oracles) (h : Host σ) (req : ExecuteRequest) :
    StableErrors (execute_with_host O h req) := by
  unfold execute_with_host
  simp only [HostM.bind_def]
  apply stable_bind (validationPhase_stable O h req)
  intro _
  apply stable_bind (stable_liftE (rewrite_sql_for_execution_stable O req.sql _))
  intro rewritten_sql
  apply stable_bind (stable_mapErr _ _ (fun e => map_host_error_stable e _ sqlite_execution_mem))
  intro response
  intro s e he
  split at he
  · rcases bindSplit : (execute_plugin_change_detection h req.request_id
        req.plugin_change_requests) s with ⟨s2, t2, r2⟩
    rw [HostM.bind_apply, bindSplit] at he
    cases r2 with
    | ok a => exact Except.noConfusion (by simpa using he)
    | error e0 =>
      have h0 : e0 = e := by simpa using he
      exact h0 ▸ execute_plugin_change_detection_stable h req.request_id
        req.plugin_change_requests s e0 (by rw [bindSplit])
  · rcases bindSplit : (Pure.pure [] : HostM σ (List Json)) s with ⟨s2, t2, r2⟩
    rw [HostM.bind_apply, bindSplit] at he
    cases r2 with
    | ok a => exact Except.noConfusion (by simpa using he)
    | error e0 =>
      exact absurd (by rw [bindSplit] : ((Pure.pure [] : HostM σ (List Json)) s).2.2 = .error e0)
        (by rw [HostM.pure_def, HostM.pure_apply]; simp)

end LixEngine

namespace LixEngine

/-- C7: `map_host_error(error, default_code)` (for the stable default codes
used at every call site) returns the error unchanged iff `error.code` is
one of the seven stable engine codes, and otherwise returns an error with
code `default_code` and the original message; consequently, for every host
implementation and every `ExecuteRequest`, any `EngineError` returned by
`execute_with_host` has a code drawn from that seven-element set. -/
theorem map_host_error_claim (O : Oracles) (h : Host σ) (s : σ) (req : ExecuteRequest)
    (error : EngineError) (default_code : String)
    (hd : default_code ∈ STABLE_ENGINE_CODES) :
    ((map_host_error error default_code = error ↔ error.code ∈ STABLE_ENGINE_CODES)
      ∧ (error.code ∉ STABLE_ENGINE_CODES →
          map_host_error error default_code = ⟨default_code, error.message⟩))
    ∧ (∀ e, ((execute_with_host O h req) s).2.2 = .error e →
        e.code ∈ STABLE_ENGINE_CODES) := by
  refine ⟨⟨⟨?_, fun hm => (map_host_error_cases error default_code).1 hm⟩,
          (map_host_error_cases error default_code).2⟩,
          fun e he => execute_with_host_stable O h req s e he⟩
  intro heq
  by_contra hnm
  have h2 := (map_host_error_cases error default_code).2 hnm
  rw [h2] at heq
  have hcode : default_code = error.code := congrArg EngineError.code heq
  exact hnm (hcode ▸ hd)

theorem c7_witness :
    ((map_host_error ⟨LIX_RUST_TIMEOUT, "m"⟩ LIX_RUST_SQLITE_EXECUTION
        = ⟨LIX_RUST_TIMEOUT, "m"⟩
      ↔ (EngineError.mk LIX_RUST_TIMEOUT "m").code ∈ STABLE_ENGINE_CODES)
      ∧ ((EngineError.mk LIX_RUST_TIMEOUT "m").code ∉ STABLE_ENGINE_CODES →
          map_host_error ⟨LIX_RUST_TIMEOUT, "m"⟩ LIX_RUST_SQLITE_EXECUTION
            = ⟨LIX_RUST_SQLITE_EXECUTION, "m"⟩))
    ∧ (∀ e, ((execute_with_host trivialOracles plainReadHost readRequest) ()).2.2 = .error e →
        e.code ∈ STABLE_ENGINE_CODES) :=
  map_host_error_claim trivialOracles plainReadHost () readRequest
    ⟨LIX_RUST_TIMEOUT, "m"⟩ LIX_RUST_SQLITE_EXECUTION (by decide)

end LixEngine

namespace LixEngine

/-- The row-validation loop's trace is the schema-load calls of a prefix of
its rows, all of them on success. -/
theorem validateRowsLoop_trace (O : Oracles) (h : Host σ) :
    ∀ (rows : List MutationValidationRow) (s : σ),
      ∃ k, ((validateRowsLoop O h rows) s).2.1 = (rows.take k).map schemaCallOf
        ∧ (∀ u, ((validateRowsLoop O h rows) s).2.2 = .ok u → k = rows.length)
  | [], s => ⟨0, rfl, fun _ _ => rfl⟩
  | row :: rest, s => by
    have hbd : validateRowsLoop O h (row :: rest)
        = HostM.bind (validate_single_mutation_row O h row)
            (fun _ => validateRowsLoop O h rest) := rfl
    rcases hone : (validate_single_mutation_row O h row) s with ⟨s2, t1, r1⟩
    have ht1 : t1 = [schemaCallOf row] := by
      have := validate_single_mutation_row_trace O h row s
      rw [hone] at this
      exact this
    cases r1 with
    | error e =>
      refine ⟨1, ?_, ?_⟩
      · rw [hbd, HostM.bind_apply, hone, ht1]
        rfl
      · intro u hu
        rw [hbd, HostM.bind_apply, hone] at hu
        exact Except.noConfusion hu
    | ok a =>
      obtain ⟨k, hk, hkok⟩ := validateRowsLoop_trace O h rest s2
      refine ⟨k + 1, ?_, ?_⟩
      · rw [hbd, HostM.bind_apply, hone, ht1]
        simp [hk, List.take, schemaCallOf]
      · intro u hu
        rw [hbd, HostM.bind_apply, hone] at hu
        simp only [List.length_cons]
        have := hkok u (by simpa using hu)
        omega

/-- The statement-validation loop's trace is the schema-load calls of some
row list; on success that list is exactly the pure extraction of all
mutation validation rows. -/
theorem validateStatementsLoop_trace (O : Oracles) (h : Host σ) (params : List Json) :
    ∀ (stmts : List Statement) (cursor : Nat) (s : σ),
      ∃ rowsDone : List MutationValidationRow,
        ((validateStatementsLoop O h params stmts cursor) s).2.1
          = rowsDone.map schemaCallOf
        ∧ (∀ u, ((validateStatementsLoop O h params stmts cursor) s).2.2 = .ok u →
            extract_rows_pure O params stmts cursor = .ok rowsDone)
  | [], cursor, s => ⟨[], rfl, fun _ _ => rfl⟩
  | stmt :: rest, cursor, s => by
    have hbd : validateStatementsLoop O h params (stmt :: rest) cursor
        = HostM.bind (HostM.liftE (extract_insert_validation_rows O stmt params cursor))
            (fun a => HostM.bind (validateRowsLoop O h a.1)
              (fun _ => validateStatementsLoop O h params rest a.2)) := rfl
    rcases hx : extract_insert_validation_rows O stmt params cursor with e1 | a
    · refine ⟨[], ?_, ?_⟩
      · rw [hbd, HostM.bind_apply, HostM.liftE_apply, hx]
        rfl
      · intro u hu
        rw [hbd, HostM.bind_apply, HostM.liftE_apply, hx] at hu
        exact Except.noConfusion hu
    · obtain ⟨rows, cursor2⟩ := a
      rcases hrl : (validateRowsLoop O h rows) s with ⟨s2, t2, r2⟩
      obtain ⟨k, hk, hkok⟩ := validateRowsLoop_trace O h rows s
      rw [hrl] at hk hkok
      dsimp only at hk hkok
      cases r2 with
      | error e =>
        refine ⟨rows.take k, ?_, ?_⟩
        · rw [hbd, HostM.bind_apply, HostM.liftE_apply, hx]
          simp only [HostM.bind_apply, hrl]
          simpa using hk
        · intro u hu
          rw [hbd, HostM.bind_apply, HostM.liftE_apply, hx] at hu
          simp only [HostM.bind_apply, hrl] at hu
          exact Except.noConfusion hu
      | ok _ =>
        have hkfull : k = rows.length := hkok _ rfl
        obtain ⟨rowsDone, hrd, hrdok⟩ := validateStatementsLoop_trace O h params rest cursor2 s2
        refine ⟨rows ++ rowsDone, ?_, ?_⟩
        · rw [hbd, HostM.bind_apply, HostM.liftE_apply, hx]
          simp only [HostM.bind_apply, hrl]
          simp [hk, hkfull, hrd]
        · intro u hu
          rw [hbd, HostM.bind_apply, HostM.liftE_apply, hx] at hu
          simp only [HostM.bind_apply, hrl] at hu
          have hrest := hrdok u (by simpa using hu)
          simp [extract_rows_pure, hx, hrest]

end LixEngine

namespace LixEngine

/-- `validate_state_mutation_rows` emits exactly the schema-load calls of
some row list; on success that list is the pure extraction
`mutation_validation_rows`. -/
theorem validate_state_mutation_rows_trace (O : Oracles) (h : Host σ) (sql : String)
    (params : List Json) (kind : String) (s : σ) :
    ∃ rowsDone : List MutationValidationRow,
      ((validate_state_mutation_rows O h sql params kind) s).2.1
        = rowsDone.map schemaCallOf
      ∧ (∀ u, ((validate_state_mutation_rows O h sql params kind) s).2.2 = .ok u →
          mutation_validation_rows O sql params kind = .ok rowsDone) := by
  unfold validate_state_mutation_rows mutation_validation_rows
  dsimp only
  split
  · exact ⟨[], rfl, fun _ _ => rfl⟩
  · rcases hp : O.parseSql sql with e1 | statements <;> simp only [hp]
    · exact ⟨[], rfl, fun u hu => Except.noConfusion hu⟩
    · obtain ⟨rowsDone, h1, h2⟩ := validateStatementsLoop_trace O h params statements 0 s
      exact ⟨rowsDone, h1, fun u hu => h2 u hu⟩

/-- The validation phase emits exactly the schema-load calls of some row
list; on success that list is the pure extraction. -/
theorem validationPhase_trace (O : Oracles) (h : Host σ) (req : ExecuteRequest) (s : σ) :
    ∃ rowsDone : List MutationValidationRow,
      ((validationPhase O h req) s).2.1 = rowsDone.map schemaCallOf
      ∧ (∀ u, ((validationPhase O h req) s).2.2 = .ok u →
          mutation_validation_rows O req.sql req.params
            (plan_execute O req.sql).statement_kind = .ok rowsDone) := by
  unfold validationPhase
  dsimp only
  split
  · rcases hv : validate_validation_mutations O req.sql with e1 | u1
    · refine ⟨[], ?_, ?_⟩
      · simp [HostM.bind_def, HostM.bind_apply, HostM.liftE_apply]
      · intro u hu
        simp only [HostM.bind_def, HostM.bind_apply, HostM.liftE_apply] at hu
        exact Except.noConfusion hu
    · obtain ⟨rowsDone, h1, h2⟩ :=
        validate_state_mutation_rows_trace O h req.sql req.params
          (plan_execute O req.sql).statement_kind s
      refine ⟨rowsDone, ?_, ?_⟩
      · simp only [HostM.bind_def, HostM.bind_apply, HostM.liftE_apply]
        simpa using h1
      · intro u hu
        simp only [HostM.bind_def, HostM.bind_apply, HostM.liftE_apply] at hu
        exact h2 u (by simpa using hu)
  · obtain ⟨rowsDone, h1, h2⟩ :=
      validate_state_mutation_rows_trace O h req.sql req.params
        (plan_execute O req.sql).statement_kind s
    refine ⟨rowsDone, ?_, ?_⟩
    · simp only [HostM.bind_def, HostM.bind_apply, HostM.pure_def, HostM.pure_apply]
      simpa using h1
    · intro u hu
      simp only [HostM.bind_def, HostM.bind_apply, HostM.pure_def, HostM.pure_apply] at hu
      exact h2 u (by simpa using hu)

/-- The plugin change detection loop's trace is the detect calls of a
prefix of its requests (in order), all of them on success. -/
theorem execute_plugin_change_detection_trace (h : Host σ) (request_id : String) :
    ∀ (requests : List PluginChangeRequest) (s : σ),
      ∃ n, ((execute_plugin_change_detection h request_id requests) s).2.1
          = (requests.take n).map (detectCallOf request_id)
        ∧ n ≤ requests.length
        ∧ (∀ u, ((execute_plugin_change_detection h request_id requests) s).2.2 = .ok u →
            n = requests.length)
  | [], s => ⟨0, rfl, by simp, fun _ _ => rfl⟩
  | request :: rest, s => by
    have hbd : execute_plugin_change_detection h request_id (request :: rest)
        = HostM.bind (HostM.mapErr
            (callDetectChanges h
              { request_id := request_id
                plugin_key := request.plugin_key
                before := request.before
                after := request.after })
            (fun error => map_host_error error LIX_RUST_DETECT_CHANGES))
          (fun response => HostM.bind (execute_plugin_change_detection h request_id rest)
            (fun all_changes => HostM.pure (response.changes ++ all_changes))) := rfl
    rcases hc : h.detect_changes s
        { request_id := request_id
          plugin_key := request.plugin_key
          before := request.before
          after := request.after } with ⟨s2, r2⟩
    cases r2 with
    | error e =>
      refine ⟨1, ?_, by simp, ?_⟩
      · rw [hbd, HostM.bind_apply, HostM.mapErr_apply, callDetectChanges_apply, hc]
        rfl
      · intro u hu
        rw [hbd, HostM.bind_apply, HostM.mapErr_apply, callDetectChanges_apply, hc] at hu
        exact Except.noConfusion hu
    | ok response =>
      obtain ⟨n, hn, hnle, hnok⟩ := execute_plugin_change_detection_trace h request_id rest s2
      rcases hrest : (execute_plugin_change_detection h request_id rest) s2 with ⟨s3, t3, r3⟩
      rw [hrest] at hn hnok
      dsimp only at hn hnok
      refine ⟨n + 1, ?_, by simpa using hnle, ?_⟩
      · rw [hbd, HostM.bind_apply, HostM.mapErr_apply, callDetectChanges_apply, hc]
        simp only [HostM.bind_apply, hrest]
        cases r3 <;> simp [hn, detectCallOf, List.take, HostM.pure_apply]
      · intro u hu
        rw [hbd, HostM.bind_apply, HostM.mapErr_apply, callDetectChanges_apply, hc] at hu
        simp only [HostM.bind_apply, hrest] at hu
        cases r3 with
        | error e =>
          simp at hu
        | ok a =>
          simp only [List.length_cons]
          have := hnok a rfl
          omega

end LixEngine

namespace LixEngine

/-- C4: within one `execute_with_host` call the host observes, in order:
zero or more schema-load `execute` calls (on success exactly one per
extracted mutation validation row), then at most one `execute` carrying the
user statement (exactly one on success: the user's request id and params
with the rewritten SQL and the planned statement kind), then the
`detect_changes` calls of a prefix of `plugin_change_requests` in order
(all of them on success when detection applies); if the validation phase
fails the user-statement `execute` is never issued, and if the
user-statement `execute` fails no `detect_changes` call is issued. -/
theorem host_call_order (O : Oracles) (h : Host σ) (s : σ) (req : ExecuteRequest) :
    ∃ (schemaRows : List MutationValidationRow)
      (userPart : List HostExecuteRequest) (detectN : Nat),
      ((execute_with_host O h req) s).2.1
        = schemaRows.map schemaCallOf
          ++ userPart.map HostCall.execute
          ++ (req.plugin_change_requests.take detectN).map (detectCallOf req.request_id)
      ∧ userPart.length ≤ 1
      ∧ (∀ u ∈ userPart, u.request_id = req.request_id ∧ u.params = req.params
          ∧ u.statement_kind = (plan_execute O req.sql).statement_kind
          ∧ rewrite_sql_for_execution O req.sql (plan_execute O req.sql).statement_kind
              = .ok u.sql)
      ∧ (userPart = [] → detectN = 0)
      ∧ (∀ e, ((validationPhase O h req) s).2.2 = .error e → userPart = [])
      ∧ (∀ u, userPart = [u] →
          ∀ e, (h.execute ((validationPhase O h req) s).1 u).2 = .error e → detectN = 0)
      ∧ (∀ result, ((execute_with_host O h req) s).2.2 = .ok result →
          userPart.length = 1
          ∧ mutation_validation_rows O req.sql req.params
              (plan_execute O req.sql).statement_kind = .ok schemaRows
          ∧ (should_run_plugin_change_detection (plan_execute O req.sql).statement_kind
              req.sql req.params = true → detectN = req.plugin_change_requests.length)) := by
  obtain ⟨rowsDone, hvt, hvok⟩ := validationPhase_trace O h req s
  rcases hvp : (validationPhase O h req) s with ⟨s1, t1, r1⟩
  rw [hvp] at hvt hvok
  dsimp only at hvt hvok
  unfold execute_with_host
  simp only [HostM.bind_def]
  rw [HostM.bind_apply, hvp]
  cases r1 with
  | error e1 =>
    refine ⟨rowsDone, [], 0, ?_, by simp, by simp, fun _ => rfl, fun _ _ => rfl,
      by intro u hu; simp at hu, ?_⟩
    · simp [hvt]
    · intro result hres
      simp at hres
  | ok u1 =>
    dsimp only
    rcases hrw : rewrite_sql_for_execution O req.sql
        (plan_execute O req.sql).statement_kind with e2 | rwsql
    · rw [HostM.bind_apply, HostM.liftE_apply]
      refine ⟨rowsDone, [], 0, ?_, by simp, by simp, fun _ => rfl,
        fun e2 he2 => absurd he2 (by simp), by intro u hu; simp at hu, ?_⟩
      · simp [hvt]
      · intro result hres
        simp at hres
    · rw [HostM.bind_apply, HostM.liftE_apply]
      dsimp only
      rcases hex : h.execute s1
          { request_id := req.request_id, sql := rwsql, params := req.params,
            statement_kind := (plan_execute O req.sql).statement_kind } with ⟨s2, r2⟩
      rw [HostM.bind_apply, HostM.mapErr_apply, callExecute_apply, hex]
      cases r2 with
      | error e3 =>
        dsimp only
        refine ⟨rowsDone,
          [{ request_id := req.request_id, sql := rwsql, params := req.params,
             statement_kind := (plan_execute O req.sql).statement_kind }], 0,
          ?_, by simp, ?_, by intro hcontra; simp at hcontra,
          fun e2 he2 => absurd he2 (by simp), fun _ _ _ _ => rfl, ?_⟩
        · simp [hvt]
        · intro u hu
          simp only [List.mem_singleton] at hu
          subst hu
          exact ⟨rfl, rfl, rfl, rfl⟩
        · intro result hres
          simp at hres
      | ok response =>
        dsimp only
        by_cases hsd : should_run_plugin_change_detection
            (plan_execute O req.sql).statement_kind req.sql req.params = true
        · simp only [hsd, if_true]
          obtain ⟨n, hn, hnle, hnok⟩ :=
            execute_plugin_change_detection_trace h req.request_id
              req.plugin_change_requests s2
          rcases hdet : (execute_plugin_change_detection h req.request_id
              req.plugin_change_requests) s2 with ⟨s3, t3, r3⟩
          rw [hdet] at hn hnok
          dsimp only at hn hnok
          rw [HostM.bind_apply, hdet]
          refine ⟨rowsDone,
            [{ request_id := req.request_id, sql := rwsql, params := req.params,
               statement_kind := (plan_execute O req.sql).statement_kind }], n,
            ?_, by simp, ?_, by intro hcontra; simp at hcontra,
            fun e2 he2 => absurd he2 (by simp), ?_, ?_⟩
          · cases r3 <;> simp [hvt, hn, HostM.pure_def, HostM.pure_apply]
          · intro u hu
            simp only [List.mem_singleton] at hu
            subst hu
            exact ⟨rfl, rfl, rfl, rfl⟩
          · intro u hu e4 he4
            have hu2 := (List.cons.inj hu).1
            rw [← hu2, hex] at he4
            exact Except.noConfusion he4
          · intro result hres
            cases r3 with
            | error e5 => simp [HostM.pure_apply] at hres
            | ok changes =>
              exact ⟨rfl, hvok u1 rfl, fun _ => hnok changes rfl⟩
        · have hsd2 : should_run_plugin_change_detection
              (plan_execute O req.sql).statement_kind req.sql req.params = false := by
            simpa using hsd
          simp only [hsd2, Bool.false_eq_true, if_false]
          refine ⟨rowsDone,
            [{ request_id := req.request_id, sql := rwsql, params := req.params,
               statement_kind := (plan_execute O req.sql).statement_kind }], 0,
            ?_, by simp, ?_, by intro hcontra; simp at hcontra,
            fun e2 he2 => absurd he2 (by simp), ?_, ?_⟩
          · simp [hvt, HostM.bind_def, HostM.bind_apply, HostM.pure_def, HostM.pure_apply]
          · intro u hu
            simp only [List.mem_singleton] at hu
            subst hu
            exact ⟨rfl, rfl, rfl, rfl⟩
          · intro u hu e4 he4
            have hu2 := (List.cons.inj hu).1
            rw [← hu2, hex] at he4
          · intro result hres
            exact ⟨rfl, hvok u1 rfl, fun hcontra => absurd hcontra (by simp [hsd2])⟩

end LixEngine
